import Mathlib

/-!
Shallow embedding of the leina-chip8 emulator core (src/chip8.rs) and
verification of the specification claims against it.

Conventions of the embedding:
* machine integers are `Nat` with explicit wrapping (`% 256` for `u8`,
  `% 65536` for `u16`) at every point where the Rust value is stored or
  where Rust arithmetic wraps;
* the byte arrays `mem`, `vram`, `regs`, `stack`, `audio_buf` and
  `keys_held` are total functions `Nat → Nat` / `Nat → Bool`; reads of
  `u8`-typed cells are masked with `% 256` so that the embedding is
  faithful on arbitrary states;
* Rust panics of the interpreter are explicit: `step` returns a
  `StepResult` whose `error` constructor carries the offending opcode
  (the `panic!("Unknown opcode ...")` branches) and whose `exited`
  constructor is the `panic!("Exit")` of opcode 00FD;
* the persistent flag file is a state component `flagsFile`;
* the thread RNG is a pre-drawn stream `rngStream` with cursor `rngIdx`.
-/

set_option linter.unusedVariables false
set_option linter.unusedTactic false
set_option maxRecDepth 2048

/-- Modelled from the spec: the file src/constants.rs is not among the
sources (only its `use` sites are); §3 of the spec fixes the video buffer
width at W = 128. -/
def WIDTH : Nat := 128

/-- Modelled from the spec: the file src/constants.rs is not among the
sources (only its `use` sites are); §3 of the spec fixes the video buffer
height at H = 64. -/
def HEIGHT : Nat := 64

/-- Pointwise update of a total function, used for all byte-array writes. -/
def updf (f : Nat → Nat) (k v : Nat) : Nat → Nat :=
  fun a => if a = k then v else f a

/-- The four system variants (enum Chip8System in chip8.rs). -/
inductive Chip8System where
  | CHIP8
  | LSCHIP
  | MSCHIP
  | XOCHIP
deriving DecidableEq, Repr

/-- Architectural state of the emulator (struct Chip8 in chip8.rs),
minus the JIT block cache (`mems`) and the raw RNG handle. -/
structure Chip8 where
  mem : Nat → Nat
  vram : Nat → Nat
  i : Nat
  pc : Nat
  regs : Nat → Nat
  stack : Nat → Nat
  sp : Nat
  halted : Bool
  haltReg : Nat
  haltWaitForRelease : Bool
  delay : Nat
  sound : Nat
  waitVblank : Bool
  hires : Bool
  plane : Nat
  audioBuf : Nat → Nat
  pitch : Nat
  paused : Bool
  keysHeld : Nat → Bool
  system : Chip8System
  quirkVfReset : Bool
  quirkMemory : Bool
  quirkDispWait : Bool
  quirkClipping : Bool
  quirkShifting : Bool
  quirkJumping : Bool
  quirkDispWaitLores : Bool
  quirkScrollFullLores : Bool
  quirk16Colors : Bool
  tryJit : Nat → Bool
  flagsFile : Option (Nat → Nat)
  rngStream : Nat → Nat
  rngIdx : Nat

/-- Result of one interpreter step: normal continuation, the
`panic!("Unknown opcode ...")` abort carrying the opcode, or the
`panic!("Exit")` of opcode 00FD. -/
inductive StepResult where
  | ok : Chip8 → StepResult
  | error : Nat → StepResult
  | exited : StepResult

def StepResult.isOk : StepResult → Bool
  | .ok _ => true
  | _ => false

def StepResult.isErr : StepResult → Bool
  | .error _ => true
  | _ => false

def StepResult.isExited : StepResult → Bool
  | .exited => true
  | _ => false

/-- skip_ins (chip8.rs:367-376): skip the next instruction, advancing by 4
bytes when it is the XO-CHIP long form F000. -/
def skipIns (s : Chip8) : Chip8 :=
  if s.system = Chip8System.XOCHIP ∧ s.mem s.pc % 256 = 0xf0 ∧
      s.mem (s.pc + 1) % 256 = 0x00 then
    { s with pc := (s.pc + 4) % 65536 }
  else
    { s with pc := (s.pc + 2) % 65536 }

/-- The halted branch of step (chip8.rs:1243-1265): phase 1 latches the
lowest held key into V[halt_reg], phase 2 waits for its release. -/
def stepHalted (s : Chip8) : Chip8 :=
  if !s.haltWaitForRelease then
    match (List.range 16).find? (fun k => s.keysHeld k) with
    | some k => { s with regs := updf s.regs s.haltReg k, haltWaitForRelease := true }
    | none => s
  else
    if !s.keysHeld (s.regs s.haltReg % 256) then
      { s with halted := false, pc := (s.pc + 2) % 65536 }
    else s

/-- 00E0 clear (chip8.rs:1342-1348): mask every VRAM byte with 0xff - plane. -/
def clearPlanes (v : Nat → Nat) (pl : Nat) : Nat → Nat :=
  (List.range (WIDTH * HEIGHT)).foldl (fun v k => updf v k (v k &&& (255 - pl))) v

/-- One pass of 00CN scroll-down (inner loops of chip8.rs:1285-1311). -/
def scrollDownOnce (pl n : Nat) (v : Nat → Nat) : Nat → Nat :=
  let pm := 255 - pl
  (List.range WIDTH).foldl (fun v col =>
    let v := (List.range (HEIGHT - n)).foldl (fun v rfb =>
      let d := (HEIGHT - 1 - rfb) * WIDTH + col
      updf v d ((v d &&& pm) ||| (v (d - WIDTH * n) &&& pl))) v
    (List.range n).foldl (fun v k =>
      updf v (col + k * WIDTH) (v (col + k * WIDTH) &&& pm)) v) v

/-- One pass of 00DN scroll-up (inner loops of chip8.rs:1313-1341). -/
def scrollUpOnce (pl n : Nat) (v : Nat → Nat) : Nat → Nat :=
  let pm := 255 - pl
  (List.range WIDTH).foldl (fun v col =>
    let v := (List.range (HEIGHT - n)).foldl (fun v row =>
      let d := row * WIDTH + col
      updf v d ((v d &&& pm) ||| (v (d + WIDTH * n) &&& pl))) v
    (List.range n).foldl (fun v k =>
      updf v (col + (HEIGHT - n + k) * WIDTH) (v (col + (HEIGHT - n + k) * WIDTH) &&& pm)) v) v

/-- One pass of 00FB scroll-right (inner loops of chip8.rs:1354-1379). -/
def scrollRightOnce (pl : Nat) (v : Nat → Nat) : Nat → Nat :=
  let pm := 255 - pl
  (List.range HEIGHT).foldl (fun v row =>
    let v := (List.range (WIDTH - 4)).foldl (fun v cfr =>
      let d := row * WIDTH + (WIDTH - 1 - cfr)
      updf v d ((v d &&& pm) ||| (v (d - 4) &&& pl))) v
    (List.range 4).foldl (fun v k =>
      updf v (row * WIDTH + k) (v (row * WIDTH + k) &&& pm)) v) v

/-- One pass of 00FC scroll-left (inner loops of chip8.rs:1380-1405). -/
def scrollLeftOnce (pl : Nat) (v : Nat → Nat) : Nat → Nat :=
  let pm := 255 - pl
  (List.range HEIGHT).foldl (fun v row =>
    let v := (List.range (WIDTH - 4)).foldl (fun v col =>
      let d := row * WIDTH + col
      updf v d ((v d &&& pm) ||| (v (d + 4) &&& pl))) v
    (List.range 4).foldl (fun v k =>
      updf v ((row + 1) * WIDTH - 4 + k) (v ((row + 1) * WIDTH - 4 + k) &&& pm)) v) v

/-- Number of scroll passes: doubled in lo-res under the
scroll-full-pixels-in-lo-res quirk (chip8.rs:1293-1297 etc). -/
def scrollTimes (s : Chip8) : Nat :=
  if !s.hires ∧ s.quirkScrollFullLores then 2 else 1

def scrollDown (s : Chip8) (n : Nat) : Chip8 :=
  if s.system = Chip8System.CHIP8 then s
  else if n = 0 then s
  else
    let v := (List.range (scrollTimes s)).foldl (fun v _ => scrollDownOnce (s.plane % 256) n v) s.vram
    { s with vram := v }

def scrollUp (s : Chip8) (n : Nat) : Chip8 :=
  if s.system ≠ Chip8System.XOCHIP then s
  else if n = 0 then s
  else
    let v := (List.range (scrollTimes s)).foldl (fun v _ => scrollUpOnce (s.plane % 256) n v) s.vram
    { s with vram := v }

def scrollRight (s : Chip8) : Chip8 :=
  if s.system = Chip8System.CHIP8 then s
  else
    let v := (List.range (scrollTimes s)).foldl (fun v _ => scrollRightOnce (s.plane % 256) v) s.vram
    { s with vram := v }

def scrollLeft (s : Chip8) : Chip8 :=
  if s.system = Chip8System.CHIP8 then s
  else
    let v := (List.range (scrollTimes s)).foldl (fun v _ => scrollLeftOnce (s.plane % 256) v) s.vram
    { s with vram := v }

/-! ### Sprite/draw engine (DXYN, chip8.rs:1582-1670 and xo_draw 104-181)

The drawing loops only ever read `mem` (never written during a draw) and
only mutate `vram` and the collision flag, and the loop control does not
depend on `vram`.  The embedding therefore first enumerates, in exactly
the loop order of the source, the sequence of plot events — one event per
set sprite bit, carrying the plane bit and the VRAM offsets of the plotted
1×1 (hi-res) or 2×2 (lo-res) block — and then folds the source's
test-then-XOR over that sequence. -/

/-- VRAM offsets of one plotted block: one byte in hi-res, the 2×2 block
in lo-res (chip8.rs:1624-1645). -/
def blockOffsets (hires : Bool) (yy cc : Nat) : List Nat :=
  if hires then [yy * WIDTH + cc]
  else [yy * WIDTH + cc, yy * WIDTH + cc + 1,
        (yy + 1) * WIDTH + cc, (yy + 1) * WIDTH + cc + 1]

/-- Bit t of sprite row k: the source shifts each byte left through bit
0x80, so bit t lives in byte `k*bw + t/8` at position `7 - t%8`
(chip8.rs:1608-1615). -/
def bitOfSprite (mem : Nat → Nat) (src bw k t : Nat) : Bool :=
  (mem (src + (k * bw + t / 8)) % 256) / 2 ^ (7 - t % 8) % 2 = 1

/-- Drawn column for bit t: with clipping, pixels past the right edge are
dropped (the accumulated x is compared against WIDTH before the `%`);
without clipping the column wraps (chip8.rs:1617-1623). -/
def colFor (hires clip : Bool) (startx t : Nat) : Option Nat :=
  let st := if hires then 1 else 2
  if clip ∧ startx + t * st ≥ WIDTH then none
  else some ((startx + t * st) % WIDTH)

/-- Drawn row for sprite row k: the row counter wraps when it hits HEIGHT
exactly, unless clipping stops the sprite (chip8.rs:1652-1658).  Since the
start row is below HEIGHT and (in lo-res) even, hitting HEIGHT exactly is
the same as reducing mod HEIGHT. -/
def rowFor (hires clip : Bool) (starty k : Nat) : Option Nat :=
  let st := if hires then 1 else 2
  if clip ∧ starty + k * st ≥ HEIGHT then none
  else some ((starty + k * st) % HEIGHT)

/-- Plot events of one sprite bit: none when the bit is clear or the
column is clipped, else a single plot of one block (chip8.rs:1608-1649). -/
def tEvents (mem : Nat → Nat) (src p : Nat) (hires clip : Bool)
    (startx bw k yy t : Nat) : List (Nat × List Nat) :=
  if bitOfSprite mem src bw k t then
    match colFor hires clip startx t with
    | none => []
    | some cc => [(p, blockOffsets hires yy cc)]
  else []

/-- Plot events of one sprite row: none when the row is clipped, else the
bit loop (chip8.rs:1604-1658). -/
def kEvents (mem : Nat → Nat) (src p : Nat) (hires clip : Bool)
    (startx starty bw : Nat) (k : Nat) : List (Nat × List Nat) :=
  match rowFor hires clip starty k with
  | none => []
  | some yy => (List.range (8 * bw)).flatMap (tEvents mem src p hires clip startx bw k yy)

/-- Plot events of one plane pass: rows outside, bits inside, skipping
clear sprite bits and clipped rows/columns. -/
def passEvents (mem : Nat → Nat) (src p : Nat) (hires clip : Bool)
    (startx starty bw rows : Nat) : List (Nat × List Nat) :=
  (List.range rows).flatMap (kEvents mem src p hires clip startx starty bw)

/-- Number of active plane bits below bit pi (the sprite source pointer
advances by num_bytes per active plane, chip8.rs:1660). -/
def countBelow (pl pi : Nat) : Nat :=
  ((List.range pi).filter (fun j => pl &&& 2 ^ j ≠ 0)).length

/-- All plot events of one DXYN draw, over the planes 1,2,4,8 selected by
the plane mask (chip8.rs:1600-1664). -/
def spriteEvents (mem : Nat → Nat) (i0 pl : Nat) (hires clip : Bool)
    (startx starty n : Nat) : List (Nat × List Nat) :=
  let bw := if n = 0 then 2 else 1
  let nb := if n = 0 then 32 else n
  (List.range 4).flatMap (fun pi =>
    if pl &&& 2 ^ pi ≠ 0 then
      passEvents mem (i0 + nb * countBelow pl pi) (2 ^ pi) hires clip startx starty bw (nb / bw)
    else [])

/-- XOR one plane bit into each offset of one block (chip8.rs:1629,1640-1643). -/
def toggleAll (p : Nat) : (Nat → Nat) → List Nat → (Nat → Nat)
  | v, [] => v
  | v, o :: rest => toggleAll p (updf v o (v o ^^^ p)) rest

/-- Collision test of one block: the source sums the plane-masked bytes of
the block and compares with 0 (chip8.rs:1626-1628,1632-1639). -/
def testEvent (v : Nat → Nat) (p : Nat) (offs : List Nat) : Bool :=
  (offs.map (fun o => v o &&& p)).sum ≠ 0

/-- Fold the test-then-XOR of the source over the plot events, carrying
the collision flag `xord`. -/
def applyEvents : (Nat → Nat) → Bool → List (Nat × List Nat) → (Nat → Nat) × Bool
  | v, xord, [] => (v, xord)
  | v, xord, ev :: rest =>
      applyEvents (toggleAll ev.1 v ev.2) (xord || testEvent v ev.1 ev.2) rest

/-- Core of the DXYN draw, shared between the interpreter (which passes
quirk_clipping) and the JIT helper xo_draw (which never clips):
chip8.rs:1582-1666 resp. 104-181.  In lo-res the start coordinates are
doubled before reduction (lo-res is emulated as hi-res with 2× pixels). -/
def drawCore (s : Chip8) (clip : Bool) (x y n : Nat) : Chip8 :=
  let mult := if s.hires then 1 else 2
  let startx := s.regs x % 256 * mult % WIDTH
  let starty := s.regs y % 256 * mult % HEIGHT
  let r := applyEvents s.vram false
    (spriteEvents s.mem s.i (s.plane % 256) s.hires clip startx starty n)
  { s with vram := r.1, regs := updf s.regs 15 (if r.2 then 1 else 0) }

/-- The display-wait check after a draw (chip8.rs:1667-1669). -/
def postDispWait (s2 : Chip8) : Chip8 :=
  if s2.quirkDispWait ∧ !s2.hires ∧ s2.quirkDispWaitLores then
    { s2 with waitVblank := true }
  else s2

/-- The interpreter's DXYN: draw with the clipping quirk, then request a
vblank wait when the display-wait quirks apply (chip8.rs:1666-1669). -/
def execDraw (s : Chip8) (x y n : Nat) : Chip8 :=
  postDispWait (drawCore s s.quirkClipping x y n)

/-- Effect of the JIT draw helper xo_draw (chip8.rs:104-181): identical to
the interpreter's draw except that it never clips and never sets
wait_vblank, regardless of the quirks. -/
def jitDraw (s : Chip8) (x y n : Nat) : Chip8 :=
  drawCore s false x y n

/-- Effect of the JIT clear helper xo_clear (chip8.rs:96-102). -/
def jitClear (s : Chip8) : Chip8 :=
  { s with vram := clearPlanes s.vram (s.plane % 256) }

/-! ### The interpreter (step, chip8.rs:1242-1876) -/

/-- Opcode class 0 (chip8.rs:1283-1428): scrolls, clear, return,
exit, lo-res/hi-res, otherwise the unknown-opcode panic. -/
def exec0 (s : Chip8) (op nnn n : Nat) : StepResult :=
  if 0xc0 ≤ nnn ∧ nnn ≤ 0xcf then .ok (scrollDown s n)
  else if 0xd0 ≤ nnn ∧ nnn ≤ 0xdf then .ok (scrollUp s n)
  else if nnn = 0xe0 then .ok { s with vram := clearPlanes s.vram (s.plane % 256) }
  else if nnn = 0xee then
    let sp2 := (s.sp + 255) % 256
    .ok { s with sp := sp2, pc := s.stack sp2 % 65536 }
  else if nnn = 0xfb then .ok (scrollRight s)
  else if nnn = 0xfc then .ok (scrollLeft s)
  else if nnn = 0xfd then
    if s.system = Chip8System.CHIP8 then .ok s else .exited
  else if nnn = 0xfe then
    .ok (if s.system = Chip8System.CHIP8 then s else { s with hires := false })
  else if nnn = 0xff then
    .ok (if s.system = Chip8System.CHIP8 then s else { s with hires := true })
  else .error op

/-- Opcode class 5 (chip8.rs:1452-1483): skip-equal and the XO-CHIP
register-range save/load, which do not advance I.  The Rust source loops
`for reg in x..=y`, an iteration that is empty when y < x. -/
def exec5 (s : Chip8) (op x y n : Nat) : StepResult :=
  if n = 0 then
    .ok (if s.regs x % 256 = s.regs y % 256 then skipIns s else s)
  else if n = 2 then
    if s.system ≠ Chip8System.XOCHIP then .ok s
    else
      let m := (List.range (y + 1 - x)).foldl
        (fun m k => updf m (s.i + k) (s.regs (x + k) % 256)) s.mem
      .ok { s with mem := m }
  else if n = 3 then
    if s.system ≠ Chip8System.XOCHIP then .ok s
    else
      let r := (List.range (y + 1 - x)).foldl
        (fun r k => updf r (x + k) (s.mem (s.i + k) % 256)) s.regs
      .ok { s with regs := r }
  else .error op

/-- Opcode class 8 (chip8.rs:1493-1556): ALU.  The arithmetic result is
stored into VX first, then the flag is written to VF. -/
def exec8 (s : Chip8) (op x y n : Nat) : StepResult :=
  let rx := s.regs x % 256
  let ry := s.regs y % 256
  if n = 0 then .ok { s with regs := updf s.regs x ry }
  else if n = 1 then
    let r := updf s.regs x (rx ||| ry)
    .ok { s with regs := if s.quirkVfReset then updf r 15 0 else r }
  else if n = 2 then
    let r := updf s.regs x (rx &&& ry)
    .ok { s with regs := if s.quirkVfReset then updf r 15 0 else r }
  else if n = 3 then
    let r := updf s.regs x (rx ^^^ ry)
    .ok { s with regs := if s.quirkVfReset then updf r 15 0 else r }
  else if n = 4 then
    let res := (rx + ry) % 256
    let carry := if 256 ≤ rx + ry then 1 else 0
    .ok { s with regs := updf (updf s.regs x res) 15 carry }
  else if n = 5 then
    let res := (rx + 256 - ry) % 256
    let flag := if rx < ry then 0 else 1
    .ok { s with regs := updf (updf s.regs x res) 15 flag }
  else if n = 6 then
    let idx := if s.quirkShifting then x else y
    let o := s.regs idx % 256
    .ok { s with regs := updf (updf s.regs x (o / 2)) 15 (o % 2) }
  else if n = 7 then
    let res := (ry + 256 - rx) % 256
    let flag := if ry < rx then 0 else 1
    .ok { s with regs := updf (updf s.regs x res) 15 flag }
  else if n = 0xe then
    let idx := if s.quirkShifting then x else y
    let o := s.regs idx % 256
    .ok { s with regs := updf (updf s.regs x (o * 2 % 256)) 15 (o / 128) }
  else .error op

/-- Opcode class E (chip8.rs:1671-1689): skip on key held / not held. -/
def execE (s : Chip8) (op x nn : Nat) : StepResult :=
  if nn = 0x9e then
    .ok (if s.keysHeld (s.regs x % 256) then skipIns s else s)
  else if nn = 0xa1 then
    .ok (if !s.keysHeld (s.regs x % 256) then skipIns s else s)
  else .error op

/-- FX75 saveflags (chip8.rs:1800-1834): merge V0..VX over the existing
16-byte flag file (zeros when absent) and write it back. -/
def execSaveFlags (s : Chip8) (x : Nat) : Chip8 :=
  if s.system = Chip8System.CHIP8 then s
  else
    let xc := if s.system = Chip8System.XOCHIP then x else min x 7
    let buffer := match s.flagsFile with
      | some f => f
      | none => fun _ => 0
    let buf2 := (List.range (xc + 1)).foldl (fun b k => updf b k (s.regs k % 256)) buffer
    { s with flagsFile := some buf2 }

/-- FX85 loadflags (chip8.rs:1835-1870): load V0..VX from the flag file,
creating it zeroed (and zeroing the registers) when it is missing. -/
def execLoadFlags (s : Chip8) (x : Nat) : Chip8 :=
  if s.system = Chip8System.CHIP8 then s
  else
    let xc := if s.system = Chip8System.XOCHIP then x else min x 7
    match s.flagsFile with
    | some f =>
      { s with regs := (List.range (xc + 1)).foldl (fun r k => updf r k (f k % 256)) s.regs }
    | none =>
      { s with flagsFile := some (fun _ => 0),
               regs := (List.range (xc + 1)).foldl (fun r k => updf r k 0) s.regs }

/-- Opcode class F (chip8.rs:1690-1873). -/
def execF (s : Chip8) (op x nn : Nat) : StepResult :=
  if nn = 0x00 then
    if x = 0 then
      if s.system ≠ Chip8System.XOCHIP then .ok s
      else
        let b1 := s.mem s.pc % 256
        let pcA := (s.pc + 1) % 65536
        let b2 := s.mem pcA % 256
        .ok { s with pc := (pcA + 1) % 65536, i := b1 * 256 + b2 }
    else .ok s
  else if nn = 0x01 then
    .ok (if s.system ≠ Chip8System.XOCHIP then s else { s with plane := x })
  else if nn = 0x02 then
    if x = 0 then
      if s.system ≠ Chip8System.XOCHIP then .ok s
      else
        let a := (List.range 16).foldl (fun a k => updf a k (s.mem (s.i + k) % 256)) s.audioBuf
        .ok { s with audioBuf := a }
    else .ok s
  else if nn = 0x07 then .ok { s with regs := updf s.regs x (s.delay % 256) }
  else if nn = 0x0a then
    .ok { s with halted := true, haltReg := x, haltWaitForRelease := false,
                 pc := (s.pc + 65534) % 65536 }
  else if nn = 0x15 then .ok { s with delay := s.regs x % 256 }
  else if nn = 0x18 then .ok { s with sound := s.regs x % 256 }
  else if nn = 0x1e then
    let i2 := (s.i + s.regs x % 256) % 65536
    .ok { s with i := if s.system ≠ Chip8System.XOCHIP then i2 % 4096 else i2 }
  else if nn = 0x29 then .ok { s with i := s.regs x % 256 * 5 + 0x50 }
  else if nn = 0x30 then
    .ok (if s.system = Chip8System.CHIP8 then s else { s with i := s.regs x % 256 * 10 + 0xa0 })
  else if nn = 0x33 then
    let v := s.regs x % 256
    let m := updf (updf (updf s.mem s.i (v / 100)) (s.i + 1) (v % 100 / 10)) (s.i + 2) (v % 10)
    .ok { s with mem := m }
  else if nn = 0x3a then
    .ok (if s.system ≠ Chip8System.XOCHIP then s else { s with pitch := s.regs x % 256 })
  else if nn = 0x55 then
    let m := (List.range (x + 1)).foldl (fun m k => updf m (s.i + k) (s.regs k % 256)) s.mem
    .ok { s with mem := m, i := if s.quirkMemory then (s.i + x + 1) % 65536 else s.i }
  else if nn = 0x65 then
    let r := (List.range (x + 1)).foldl (fun r k => updf r k (s.mem (s.i + k) % 256)) s.regs
    .ok { s with regs := r, i := if s.quirkMemory then (s.i + x + 1) % 65536 else s.i }
  else if nn = 0x75 then .ok (execSaveFlags s x)
  else if nn = 0x85 then .ok (execLoadFlags s x)
  else .error op

/-- Dispatch of one fetched opcode on its high nibble (the match on n0,
chip8.rs:1282-1875); `s` is the state with PC already advanced past the
two opcode bytes. -/
def stepOp (s : Chip8) (op : Nat) : StepResult :=
  let n0 := op / 4096
  let x := op / 256 % 16
  let y := op / 16 % 16
  let nnn := op % 4096
  let nn := op % 256
  let n := op % 16
  if n0 = 0 then exec0 s op nnn n
  else if n0 = 1 then .ok { s with pc := nnn }
  else if n0 = 2 then
    .ok { s with stack := updf s.stack s.sp s.pc, sp := (s.sp + 1) % 256, pc := nnn }
  else if n0 = 3 then .ok (if s.regs x % 256 = nn then skipIns s else s)
  else if n0 = 4 then .ok (if s.regs x % 256 ≠ nn then skipIns s else s)
  else if n0 = 5 then exec5 s op x y n
  else if n0 = 6 then .ok { s with regs := updf s.regs x nn }
  else if n0 = 7 then .ok { s with regs := updf s.regs x ((s.regs x % 256 + nn) % 256) }
  else if n0 = 8 then exec8 s op x y n
  else if n0 = 9 then
    if n = 0 then .ok (if s.regs x % 256 ≠ s.regs y % 256 then skipIns s else s)
    else .ok s
  else if n0 = 0xa then .ok { s with i := nnn }
  else if n0 = 0xb then
    .ok { s with pc := if s.quirkJumping then nnn + s.regs x % 256 else nnn + s.regs 0 % 256 }
  else if n0 = 0xc then
    .ok { s with regs := updf s.regs x (s.rngStream s.rngIdx % 256 &&& nn),
                 rngIdx := s.rngIdx + 1 }
  else if n0 = 0xd then .ok (execDraw s x y n)
  else if n0 = 0xe then execE s op x nn
  else execF s op x nn

/-- One interpreter step (chip8.rs:1242-1876): handle the halted state, or
fetch two bytes (advancing PC by 2) and dispatch on the high nibble. -/
def step (s0 : Chip8) : StepResult :=
  if s0.halted then .ok (stepHalted s0)
  else
    let b1 := s0.mem s0.pc % 256
    let pc1 := (s0.pc + 1) % 65536
    let b2 := s0.mem pc1 % 256
    stepOp { s0 with pc := (pc1 + 1) % 65536 } (b1 * 256 + b2)

/-- Convenience runner: the next state of a non-aborting step. -/
def stepOr (s : Chip8) : Chip8 :=
  match step s with
  | .ok s2 => s2
  | _ => s

/-! ### JIT classifier and memory-access oracle -/

/-- The 16-bit fetch of check_mem_access and jittable (chip8.rs:387-388,
1110): big-endian read of the two bytes at pc and pc+1. -/
def fetch16 (s : Chip8) (pc : Nat) : Nat :=
  s.mem pc % 256 * 256 + s.mem (pc + 1) % 256

/-- Opcode part of jittable (the match in chip8.rs:1110-1140): which
opcodes the JIT translator is willing to compile. -/
def jittableOp (op : Nat) : Bool :=
  let n0 := op / 4096
  let nnn := op % 4096
  let nn := op % 256
  let n := op % 16
  if n0 = 0 then nnn = 0xe0 || nnn = 0xee || nnn = 0xfe || nnn = 0xff
  else if n0 = 5 then n = 0
  else if n0 = 0xf then
    nn = 0x00 || nn = 0x07 || nn = 0x0a || nn = 0x15 || nn = 0x18 ||
    nn = 0x1e || nn = 0x33 || nn = 0x55 || nn = 0x65
  else (1 ≤ n0 && n0 ≤ 4) || (6 ≤ n0 && n0 ≤ 0xa) || (0xd ≤ n0 && n0 ≤ 0xe)

/-- jittable (chip8.rs:1105-1141): the per-PC sentinel gate and the
opcode classification of the word at pc. -/
def jittable (s : Chip8) (pc : Nat) : Bool :=
  s.tryJit pc && jittableOp (fetch16 s pc)

/-- count_ones of a byte (used for the plane mask in check_mem_access,
chip8.rs:422). -/
def popcount8 (b : Nat) : Nat :=
  (List.range 8).foldl (fun acc j => acc + b / 2 ^ j % 2) 0

/-- Dispatch part of check_mem_access (the match in chip8.rs:397-460).
The additions `y - x` and `self.i + i` are u16 arithmetic and are
embedded with wraparound (`% 65536`); in a debug build Rust would panic
on the overflow instead. -/
def checkMemOp (s : Chip8) (op : Nat) : List (Nat × Bool) :=
  let n0 := op / 4096
    let x := op / 256 % 16
    let y := op / 16 % 16
    let nn := op % 256
    let n := op % 16
    if n0 = 5 then
      if n = 2 then
        if s.system = Chip8System.XOCHIP then
          (List.range ((y + 65536 - x) % 65536 + 1)).map (fun k => ((s.i + k) % 65536, false))
        else []
      else if n = 3 then
        if s.system = Chip8System.XOCHIP then
          (List.range ((y + 65536 - x) % 65536 + 1)).map (fun k => ((s.i + k) % 65536, true))
        else []
      else []
    else if n0 = 0xd then
      let numBytes := if n = 0 then 32 else n
      (List.range (numBytes * popcount8 (s.plane % 256))).map (fun k => ((s.i + k) % 65536, true))
    else if n0 = 0xf then
      if nn = 0x02 then
        if x = 0 then (List.range 16).map (fun k => ((s.i + k) % 65536, true)) else []
      else if nn = 0x33 then
        [(s.i % 65536, false), ((s.i + 1) % 65536, false), ((s.i + 2) % 65536, false)]
      else if nn = 0x55 then
        (List.range (x + 1)).map (fun k => ((s.i + k) % 65536, false))
      else if nn = 0x65 then
        (List.range (x + 1)).map (fun k => ((s.i + k) % 65536, true))
      else []
    else []

/-- check_mem_access (chip8.rs:378-463): the (guest address, is_read)
pairs the next instruction will access; empty when halted. -/
def checkMemAccess (s : Chip8) : List (Nat × Bool) :=
  if s.halted then [] else checkMemOp s (fetch16 s s.pc)

/-! ### Per-instruction effect of the JIT-emitted code

For data (non-control-flow) opcodes, compile_ins (chip8.rs:465-1103)
emits straight-line x86 acting on the architectural state; the functions
below are the state transformations that emitted code performs.  The
emitted code reads no quirk flag: its behaviour is fixed at the choices
hard-coded in the templates. -/

/-- Emitted code for 8XY6 (chip8.rs:755-769): loads VY, shifts right by
one (carry = former bit 0), stores to VX, then writes the carry to VF.
quirk_shifting is not consulted; the operand is always VY. -/
def jitShr (s : Chip8) (x y : Nat) : Chip8 :=
  let o := s.regs y % 256
  { s with regs := updf (updf s.regs x (o / 2)) 15 (o % 2) }

/-- Emitted code for 8XYE (chip8.rs:787-801): loads VY, shifts left by
one (carry = former bit 7), stores to VX, then writes the carry to VF.
quirk_shifting is not consulted; the operand is always VY. -/
def jitShl (s : Chip8) (x y : Nat) : Chip8 :=
  let o := s.regs y % 256
  { s with regs := updf (updf s.regs x (o * 2 % 256)) 15 (o / 128) }

/-- Emitted code for 8XY1 (chip8.rs:698-706): VX |= VY with no
quirk_vf_reset handling. -/
def jitOr (s : Chip8) (x y : Nat) : Chip8 :=
  { s with regs := updf s.regs x (s.regs x % 256 ||| s.regs y % 256) }

/-- Emitted code for FX55 (chip8.rs:1044-1066): store V0..VX to mem[I..]
and always advance I by X+1, with no quirk_memory check. -/
def jitSaveRegs (s : Chip8) (x : Nat) : Chip8 :=
  let m := (List.range (x + 1)).foldl (fun m k => updf m (s.i % 65536 + k) (s.regs k % 256)) s.mem
  { s with mem := m, i := (s.i + x + 1) % 65536 }

/-- Emitted code for FX1E (chip8.rs:1003-1011): 16-bit I += VX with no
12-bit masking on non-XO-CHIP systems. -/
def jitAddI (s : Chip8) (x : Nat) : Chip8 :=
  { s with i := (s.i + s.regs x % 256) % 65536 }

/-! ### Palette and initial state -/

/-- The 16-color palette of draw (chip8.rs:330-348); `none` is the
`panic!("Invalid color")` fallthrough arm. -/
def palette16 (c : Nat) : Option (Nat × Nat × Nat × Nat) :=
  if c = 0x0 then some (0x00, 0x00, 0x00, 0xff)
  else if c = 0x1 then some (0xff, 0xff, 0xff, 0xff)
  else if c = 0x2 then some (0xaa, 0xaa, 0xaa, 0xff)
  else if c = 0x3 then some (0x55, 0x55, 0x55, 0xff)
  else if c = 0x4 then some (0xff, 0x00, 0x00, 0xff)
  else if c = 0x5 then some (0x00, 0xff, 0x00, 0xff)
  else if c = 0x6 then some (0x00, 0x00, 0xff, 0xff)
  else if c = 0x7 then some (0xff, 0xff, 0x00, 0xff)
  else if c = 0x8 then some (0x88, 0x00, 0x00, 0xff)
  else if c = 0x9 then some (0x00, 0x88, 0x00, 0xff)
  else if c = 0xa then some (0x00, 0x00, 0x88, 0xff)
  else if c = 0xb then some (0x88, 0x88, 0x00, 0xff)
  else if c = 0xc then some (0xff, 0x00, 0xff, 0xff)
  else if c = 0xd then some (0x00, 0xff, 0xff, 0xff)
  else if c = 0xe then some (0x88, 0x00, 0x88, 0xff)
  else if c = 0xf then some (0x00, 0x88, 0x88, 0xff)
  else none

/-- Write a byte list into memory starting at a base address
(the font loops of Chip8::new, chip8.rs:249-251 and 272-274). -/
def writeBytes : (Nat → Nat) → Nat → List Nat → (Nat → Nat)
  | m, _, [] => m
  | m, a, b :: bs => writeBytes (updf m a (b % 256)) (a + 1) bs

/-- The 4×5 small font (chip8.rs:230-247), loaded at 0x50. -/
def smallFont : List Nat :=
  [0xF0, 0x90, 0x90, 0x90, 0xF0,
   0x20, 0x60, 0x20, 0x20, 0x70,
   0xF0, 0x10, 0xF0, 0x80, 0xF0,
   0xF0, 0x10, 0xF0, 0x10, 0xF0,
   0x90, 0x90, 0xF0, 0x10, 0x10,
   0xF0, 0x80, 0xF0, 0x10, 0xF0,
   0xF0, 0x80, 0xF0, 0x90, 0xF0,
   0xF0, 0x10, 0x20, 0x40, 0x40,
   0xF0, 0x90, 0xF0, 0x90, 0xF0,
   0xF0, 0x90, 0xF0, 0x10, 0xF0,
   0xF0, 0x90, 0xF0, 0x90, 0x90,
   0xE0, 0x90, 0xE0, 0x90, 0xE0,
   0xF0, 0x80, 0x80, 0x80, 0xF0,
   0xE0, 0x90, 0x90, 0x90, 0xE0,
   0xF0, 0x80, 0xF0, 0x80, 0xF0,
   0xF0, 0x80, 0xF0, 0x80, 0x80]

/-- The 8×10 large font (chip8.rs:253-270), loaded at 0xA0. -/
def bigFont : List Nat :=
  [0xFF, 0xFF, 0xC3, 0xC3, 0xC3, 0xC3, 0xC3, 0xC3, 0xFF, 0xFF,
   0x18, 0x78, 0x78, 0x18, 0x18, 0x18, 0x18, 0x18, 0xFF, 0xFF,
   0xFF, 0xFF, 0x03, 0x03, 0xFF, 0xFF, 0xC0, 0xC0, 0xFF, 0xFF,
   0xFF, 0xFF, 0x03, 0x03, 0xFF, 0xFF, 0x03, 0x03, 0xFF, 0xFF,
   0xC3, 0xC3, 0xC3, 0xC3, 0xFF, 0xFF, 0x03, 0x03, 0x03, 0x03,
   0xFF, 0xFF, 0xC0, 0xC0, 0xFF, 0xFF, 0x03, 0x03, 0xFF, 0xFF,
   0xFF, 0xFF, 0xC0, 0xC0, 0xFF, 0xFF, 0xC3, 0xC3, 0xFF, 0xFF,
   0xFF, 0xFF, 0x03, 0x03, 0x06, 0x0C, 0x18, 0x18, 0x18, 0x18,
   0xFF, 0xFF, 0xC3, 0xC3, 0xFF, 0xFF, 0xC3, 0xC3, 0xFF, 0xFF,
   0xFF, 0xFF, 0xC3, 0xC3, 0xFF, 0xFF, 0x03, 0x03, 0xFF, 0xFF,
   0x7E, 0xFF, 0xC3, 0xC3, 0xC3, 0xFF, 0xFF, 0xC3, 0xC3, 0xC3,
   0xFC, 0xFC, 0xC3, 0xC3, 0xFC, 0xFC, 0xC3, 0xC3, 0xFC, 0xFC,
   0x3C, 0xFF, 0xC3, 0xC0, 0xC0, 0xC0, 0xC0, 0xC3, 0xFF, 0x3C,
   0xFC, 0xFE, 0xC3, 0xC3, 0xC3, 0xC3, 0xC3, 0xC3, 0xFE, 0xFC,
   0xFF, 0xFF, 0xC0, 0xC0, 0xFF, 0xFF, 0xC0, 0xC0, 0xFF, 0xFF,
   0xFF, 0xFF, 0xC0, 0xC0, 0xFF, 0xFF, 0xC0, 0xC0, 0xC0, 0xC0]

/-- The initial state built by Chip8::new (chip8.rs:184-279): zeroed
state, PC = 0x200, plane = 1, both fonts loaded, and the quirk profile of
set_system(XOCHIP) (chip8.rs:313-322). -/
def chip8New : Chip8 :=
  { mem := writeBytes (writeBytes (fun _ => 0) 0x50 smallFont) 0xa0 bigFont
    vram := fun _ => 0
    i := 0
    pc := 0x200
    regs := fun _ => 0
    stack := fun _ => 0
    sp := 0
    halted := false
    haltReg := 0
    haltWaitForRelease := false
    delay := 0
    sound := 0
    waitVblank := true
    hires := false
    plane := 1
    audioBuf := fun _ => 0
    pitch := 0
    paused := true
    keysHeld := fun _ => false
    system := Chip8System.XOCHIP
    quirkVfReset := false
    quirkMemory := true
    quirkDispWait := true
    quirkClipping := false
    quirkShifting := false
    quirkJumping := false
    quirkDispWaitLores := false
    quirkScrollFullLores := true
    quirk16Colors := true
    tryJit := fun _ => true
    flagsFile := none
    rngStream := fun _ => 0
    rngIdx := 0 }

/-! ### Generic dispatch lemmas for step -/

lemma step_eq (s : Chip8) (hh : s.halted = false) :
    step s = stepOp { s with pc := ((s.pc + 1) % 65536 + 1) % 65536 }
      (s.mem s.pc % 256 * 256 + s.mem ((s.pc + 1) % 65536) % 256) := by
  unfold step
  rw [hh]
  norm_num

lemma stepOp_0 (s : Chip8) (op : Nat) (h : op / 4096 = 0) :
    stepOp s op = exec0 s op (op % 4096) (op % 16) := by
  unfold stepOp; rw [h]; norm_num

lemma stepOp_1 (s : Chip8) (op : Nat) (h : op / 4096 = 1) :
    stepOp s op = .ok { s with pc := op % 4096 } := by
  unfold stepOp; rw [h]; norm_num

lemma stepOp_2 (s : Chip8) (op : Nat) (h : op / 4096 = 2) :
    stepOp s op = .ok { s with stack := updf s.stack s.sp s.pc, sp := (s.sp + 1) % 256,
                               pc := op % 4096 } := by
  unfold stepOp; rw [h]; norm_num

lemma stepOp_3 (s : Chip8) (op : Nat) (h : op / 4096 = 3) :
    stepOp s op = .ok (if s.regs (op / 256 % 16) % 256 = op % 256 then skipIns s else s) := by
  unfold stepOp; rw [h]; norm_num

lemma stepOp_4 (s : Chip8) (op : Nat) (h : op / 4096 = 4) :
    stepOp s op = .ok (if s.regs (op / 256 % 16) % 256 ≠ op % 256 then skipIns s else s) := by
  unfold stepOp; rw [h]; norm_num

lemma stepOp_5 (s : Chip8) (op : Nat) (h : op / 4096 = 5) :
    stepOp s op = exec5 s op (op / 256 % 16) (op / 16 % 16) (op % 16) := by
  unfold stepOp; rw [h]; norm_num

lemma stepOp_6 (s : Chip8) (op : Nat) (h : op / 4096 = 6) :
    stepOp s op = .ok { s with regs := updf s.regs (op / 256 % 16) (op % 256) } := by
  unfold stepOp; rw [h]; norm_num

lemma stepOp_7 (s : Chip8) (op : Nat) (h : op / 4096 = 7) :
    stepOp s op = .ok { s with regs := updf s.regs (op / 256 % 16) ((s.regs (op / 256 % 16) % 256 + op % 256) % 256) } := by
  unfold stepOp; rw [h]; norm_num

lemma stepOp_8 (s : Chip8) (op : Nat) (h : op / 4096 = 8) :
    stepOp s op = exec8 s op (op / 256 % 16) (op / 16 % 16) (op % 16) := by
  unfold stepOp; rw [h]; norm_num

lemma stepOp_9 (s : Chip8) (op : Nat) (h : op / 4096 = 9) :
    stepOp s op = (if op % 16 = 0 then
        .ok (if s.regs (op / 256 % 16) % 256 ≠ s.regs (op / 16 % 16) % 256 then skipIns s else s)
      else .ok s) := by
  unfold stepOp; rw [h]; norm_num

lemma stepOp_a (s : Chip8) (op : Nat) (h : op / 4096 = 0xa) :
    stepOp s op = .ok { s with i := op % 4096 } := by
  unfold stepOp; rw [h]; norm_num

lemma stepOp_b (s : Chip8) (op : Nat) (h : op / 4096 = 0xb) :
    stepOp s op = .ok { s with pc := if s.quirkJumping then op % 4096 + s.regs (op / 256 % 16) % 256
                                     else op % 4096 + s.regs 0 % 256 } := by
  unfold stepOp; rw [h]; norm_num

lemma stepOp_c (s : Chip8) (op : Nat) (h : op / 4096 = 0xc) :
    stepOp s op = .ok { s with regs := updf s.regs (op / 256 % 16) (s.rngStream s.rngIdx % 256 &&& op % 256), rngIdx := s.rngIdx + 1 } := by
  unfold stepOp; rw [h]; norm_num

lemma stepOp_d (s : Chip8) (op : Nat) (h : op / 4096 = 0xd) :
    stepOp s op = .ok (execDraw s (op / 256 % 16) (op / 16 % 16) (op % 16)) := by
  unfold stepOp; rw [h]; norm_num

lemma stepOp_e (s : Chip8) (op : Nat) (h : op / 4096 = 0xe) :
    stepOp s op = execE s op (op / 256 % 16) (op % 256) := by
  unfold stepOp; rw [h]; norm_num

lemma stepOp_f (s : Chip8) (op : Nat) (h : op / 4096 = 0xf) :
    stepOp s op = execF s op (op / 256 % 16) (op % 256) := by
  unfold stepOp; rw [h]; norm_num

/-! ### Concrete test states -/

/-- A fresh XO-CHIP state with zeroed memory (the quirks of
set_system(XOCHIP)), used as template for the concrete test states. -/
def zeroState : Chip8 :=
  { mem := fun _ => 0
    vram := fun _ => 0
    i := 0
    pc := 0x200
    regs := fun _ => 0
    stack := fun _ => 0
    sp := 0
    halted := false
    haltReg := 0
    haltWaitForRelease := false
    delay := 0
    sound := 0
    waitVblank := false
    hires := false
    plane := 1
    audioBuf := fun _ => 0
    pitch := 0
    paused := false
    keysHeld := fun _ => false
    system := Chip8System.XOCHIP
    quirkVfReset := false
    quirkMemory := true
    quirkDispWait := true
    quirkClipping := false
    quirkShifting := false
    quirkJumping := false
    quirkDispWaitLores := false
    quirkScrollFullLores := true
    quirk16Colors := true
    tryJit := fun _ => true
    flagsFile := none
    rngStream := fun _ => 0
    rngIdx := 0 }

/-- Test state for the shift scenarios of the spec: V1 = 0x80, V2 = 0x01,
opcode 812E at 0x200, shifting quirk on. -/
def c4on : Chip8 :=
  { zeroState with
    mem := fun a => if a = 0x200 then 0x81 else if a = 0x201 then 0x2E else 0
    regs := fun a => if a = 1 then 0x80 else if a = 2 then 1 else 0
    quirkShifting := true }

/-- The same shift scenario with the shifting quirk off. -/
def c4off : Chip8 := { c4on with quirkShifting := false }

/-! ### Claim C4: shift semantics of 8XY6 / 8XYE in step -/

/-- C4: for opcodes 8XY6 and 8XYE executed via step, the shifted operand
is VX when quirk_shifting is set and VY otherwise; VX receives the
operand shifted right (8XY6) or left (8XYE) by one and VF receives
exactly the shifted-out bit.  Concretely, with V1=0x80, V2=0x01 and
quirk_shifting on, op 812E gives V1=0x00 and VF=1; with the quirk off it
gives V1=0x02 and VF=0. -/
theorem c4_shift_quirk_semantics :
    (∀ s x y, s.halted = false → x < 16 → y < 16 →
      s.mem s.pc % 256 = 0x80 + x → s.mem ((s.pc + 1) % 65536) % 256 = 16 * y + 6 →
      ∃ s2, step s = .ok s2 ∧
        s2.regs 15 = (if s.quirkShifting then s.regs x else s.regs y) % 256 % 2 ∧
        (x ≠ 15 → s2.regs x = (if s.quirkShifting then s.regs x else s.regs y) % 256 / 2))
    ∧ (∀ s x y, s.halted = false → x < 16 → y < 16 →
      s.mem s.pc % 256 = 0x80 + x → s.mem ((s.pc + 1) % 65536) % 256 = 16 * y + 0xe →
      ∃ s2, step s = .ok s2 ∧
        s2.regs 15 = (if s.quirkShifting then s.regs x else s.regs y) % 256 / 128 ∧
        (x ≠ 15 → s2.regs x = (if s.quirkShifting then s.regs x else s.regs y) % 256 * 2 % 256))
    ∧ ((stepOr c4on).regs 1 = 0x00 ∧ (stepOr c4on).regs 15 = 1)
    ∧ ((stepOr c4off).regs 1 = 0x02 ∧ (stepOr c4off).regs 15 = 0) := by
  refine ⟨?_, ?_, by decide, by decide⟩
  · intro s x y hh hx hy hb1 hb2
    rw [step_eq s hh]
    have hop : s.mem s.pc % 256 * 256 + s.mem ((s.pc + 1) % 65536) % 256
        = 0x8000 + (x * 256 + (16 * y + 6)) := by rw [hb1, hb2]; ring
    rw [hop, stepOp_8 _ _ (by omega)]
    have hxx : (0x8000 + (x * 256 + (16 * y + 6))) / 256 % 16 = x := by omega
    have hyy : (0x8000 + (x * 256 + (16 * y + 6))) / 16 % 16 = y := by omega
    have hnn : (0x8000 + (x * 256 + (16 * y + 6))) % 16 = 6 := by omega
    rw [hxx, hyy, hnn]
    unfold exec8
    norm_num
    by_cases hq : s.quirkShifting <;>
      simp only [hq, Bool.false_eq_true, if_true, if_false] <;>
      norm_num <;>
      exact ⟨by simp [updf], fun hx15 => by simp [updf, hx15]⟩
  · intro s x y hh hx hy hb1 hb2
    rw [step_eq s hh]
    have hop : s.mem s.pc % 256 * 256 + s.mem ((s.pc + 1) % 65536) % 256
        = 0x8000 + (x * 256 + (16 * y + 0xe)) := by rw [hb1, hb2]; ring
    rw [hop, stepOp_8 _ _ (by omega)]
    have hxx : (0x8000 + (x * 256 + (16 * y + 0xe))) / 256 % 16 = x := by omega
    have hyy : (0x8000 + (x * 256 + (16 * y + 0xe))) / 16 % 16 = y := by omega
    have hnn : (0x8000 + (x * 256 + (16 * y + 0xe))) % 16 = 0xe := by omega
    rw [hxx, hyy, hnn]
    unfold exec8
    norm_num
    by_cases hq : s.quirkShifting <;>
      simp only [hq, Bool.false_eq_true, if_true, if_false] <;>
      norm_num <;>
      exact ⟨by simp [updf], fun hx15 => by simp [updf, hx15]⟩

/-- Witness for C4: the general 8XYE clause applied to the concrete state
c4on (op 812E, V1=0x80, V2=0x01, quirk on). -/
theorem c4_shift_quirk_semantics_witness :
    ∃ s2, step c4on = .ok s2 ∧
      s2.regs 15 = (if c4on.quirkShifting then c4on.regs 1 else c4on.regs 2) % 256 / 128 ∧
      (1 ≠ 15 → s2.regs 1 = (if c4on.quirkShifting then c4on.regs 1 else c4on.regs 2) % 256 * 2 % 256) :=
  c4_shift_quirk_semantics.2.1 c4on 1 2 rfl (by norm_num) (by norm_num)
    (by decide) (by decide)

/-! ### Claim C7: arithmetic flags are written after the result -/

/-- Test state for C7: opcode 8FF4 (VF += VF with carry) at 0x200 and
VF = 200, so the wrapped sum 144 is stored first and then overwritten by
the carry 1. -/
def c7st : Chip8 :=
  { zeroState with
    mem := fun a => if a = 0x200 then 0x8F else if a = 0x201 then 0xF4 else 0
    regs := fun a => if a = 15 then 200 else 0 }

/-- C7: for every flag-producing arithmetic opcode (8XY4 carry, 8XY5 and
8XY7 not-borrow, 8XY6 and 8XYE shifted-out bit) executed via step with
X = 0xF, the architectural result is stored into VX first and the flag is
written afterwards, so VF ends up holding exactly the flag; concretely
8FF4 with VF = 200 leaves VF = 1 (the carry), not the wrapped sum 144. -/
theorem c7_flag_overwrites_result :
    (∀ s y n, s.halted = false → y < 16 →
      (n = 4 ∨ n = 5 ∨ n = 6 ∨ n = 7 ∨ n = 0xe) →
      s.mem s.pc % 256 = 0x8f → s.mem ((s.pc + 1) % 65536) % 256 = 16 * y + n →
      ∃ s2, step s = .ok s2 ∧
        s2.regs 15 =
          (if n = 4 then (if 256 ≤ s.regs 15 % 256 + s.regs y % 256 then 1 else 0)
           else if n = 5 then (if s.regs 15 % 256 < s.regs y % 256 then 0 else 1)
           else if n = 6 then (if s.quirkShifting then s.regs 15 else s.regs y) % 256 % 2
           else if n = 7 then (if s.regs y % 256 < s.regs 15 % 256 then 0 else 1)
           else (if s.quirkShifting then s.regs 15 else s.regs y) % 256 / 128))
    ∧ (stepOr c7st).regs 15 = 1 := by
  refine ⟨?_, by decide⟩
  intro s y n hh hy hn hb1 hb2
  have hn16 : n < 16 := by omega
  rw [step_eq s hh]
  have hop : s.mem s.pc % 256 * 256 + s.mem ((s.pc + 1) % 65536) % 256
      = 0x8f00 + (16 * y + n) := by rw [hb1, hb2]
  rw [hop, stepOp_8 _ _ (by omega)]
  have hxx : (0x8f00 + (16 * y + n)) / 256 % 16 = 15 := by omega
  have hyy : (0x8f00 + (16 * y + n)) / 16 % 16 = y := by omega
  have hnn : (0x8f00 + (16 * y + n)) % 16 = n := by omega
  rw [hxx, hyy, hnn]
  unfold exec8
  rcases hn with rfl | rfl | rfl | rfl | rfl <;>
    (try norm_num) <;>
    (try simp [updf, apply_ite])

/-- Witness for C7: the general clause applied at c7st (op 8FF4, VF=200):
the final VF is the carry 1. -/
theorem c7_flag_overwrites_result_witness :
    ∃ s2, step c7st = .ok s2 ∧
      s2.regs 15 =
        (if 4 = 4 then (if 256 ≤ c7st.regs 15 % 256 + c7st.regs 15 % 256 then 1 else 0)
         else if 4 = 5 then (if c7st.regs 15 % 256 < c7st.regs 15 % 256 then 0 else 1)
         else if 4 = 6 then (if c7st.quirkShifting then c7st.regs 15 else c7st.regs 15) % 256 % 2
         else if 4 = 7 then (if c7st.regs 15 % 256 < c7st.regs 15 % 256 then 0 else 1)
         else (if c7st.quirkShifting then c7st.regs 15 else c7st.regs 15) % 256 / 128) :=
  c7_flag_overwrites_result.1 c7st 15 4 rfl (by norm_num) (by norm_num)
    (by decide) (by decide)

/-! ### Claim C8: the 00FD exit event -/

/-- Test state for C8: opcode 00FD at 0x200 on the CHIP8 variant. -/
def c8chipSt : Chip8 :=
  { zeroState with
    system := Chip8System.CHIP8
    mem := fun a => if a = 0x201 then 0xfd else 0 }

/-- Counterexample for C8: on the CHIP8 variant, executing 00FD does not
terminate emulation — step returns a normal continuation (the source
guards the exit with `if self.system == Chip8System::CHIP8 {return;}`),
refuting the claim that 00FD terminates on every system variant. -/
theorem c8_exit_not_on_chip8 :
    (step c8chipSt).isExited = false ∧ (step c8chipSt).isOk = true := by decide

/-- C8 (amended): executing 00FD terminates emulation as a terminal event
distinct from the unknown-opcode failure on every system variant except
CHIP8; on CHIP8 it is ignored and PC simply advances past it. -/
theorem c8_exit_event :
    (∀ s, s.halted = false → s.system ≠ Chip8System.CHIP8 →
      s.mem s.pc % 256 = 0x00 → s.mem ((s.pc + 1) % 65536) % 256 = 0xfd →
      step s = .exited)
    ∧ (∀ s, s.halted = false → s.system = Chip8System.CHIP8 →
      s.mem s.pc % 256 = 0x00 → s.mem ((s.pc + 1) % 65536) % 256 = 0xfd →
      step s = .ok { s with pc := ((s.pc + 1) % 65536 + 1) % 65536 })
    ∧ (∀ op, (StepResult.exited).isErr = false ∧ (StepResult.error op).isExited = false) := by
  refine ⟨?_, ?_, fun op => ⟨rfl, rfl⟩⟩
  · intro s hh hsys hb1 hb2
    rw [step_eq s hh]
    have hop : s.mem s.pc % 256 * 256 + s.mem ((s.pc + 1) % 65536) % 256 = 0xfd := by
      rw [hb1, hb2]
    rw [hop, stepOp_0 _ _ (by norm_num)]
    unfold exec0
    norm_num
    intro hc
    exact absurd hc hsys
  · intro s hh hsys hb1 hb2
    rw [step_eq s hh]
    have hop : s.mem s.pc % 256 * 256 + s.mem ((s.pc + 1) % 65536) % 256 = 0xfd := by
      rw [hb1, hb2]
    rw [hop, stepOp_0 _ _ (by norm_num)]
    unfold exec0
    norm_num [hsys]

/-- Witness for C8: the amended exit clause applied to a concrete XO-CHIP
state with 00FD at 0x200. -/
theorem c8_exit_event_witness :
    step { zeroState with mem := fun a => if a = 0x201 then 0xfd else 0 } = .exited :=
  c8_exit_event.1 { zeroState with mem := fun a => if a = 0x201 then 0xfd else 0 }
    rfl (by decide) (by decide) (by decide)

/-! ### Claim C3: unknown opcodes and the silent 9XYN gap -/

/-- Test state for C3: the word 0x9011 (9XYN with N = 1) at 0x200. -/
def c3St9011 : Chip8 :=
  { zeroState with
    mem := fun a => if a = 0x200 then 0x90 else if a = 0x201 then 0x11 else 0 }

/-- Sibling of c3St9011 with the word 0x5014 (5XYN with N = 4). -/
def c3St5014 : Chip8 :=
  { zeroState with
    mem := fun a => if a = 0x200 then 0x50 else if a = 0x201 then 0x14 else 0 }

/-- Sibling of c3St9011 with the word 0x8018 (8XYN with N = 8). -/
def c3St8018 : Chip8 :=
  { zeroState with
    mem := fun a => if a = 0x200 then 0x80 else if a = 0x201 then 0x18 else 0 }

/-- C3: the claim that every undefined 16-bit word aborts emulation fails
on the code: 9XYN with N ≠ 0 (here 0x9011) is silently ignored — step
returns a normal continuation with PC advanced by 2 — while the sibling
undefined patterns 5XYN (N∉{0,2,3}, here 0x5014) and 8XYN (N∈{8..D,F},
here 0x8018) do abort with the unknown-opcode error carrying the opcode. -/
theorem c3_unknown_opcode_gap :
    (step c3St9011).isErr = false ∧ (stepOr c3St9011).pc = 0x202
    ∧ step c3St5014 = .error 0x5014 ∧ step c3St8018 = .error 0x8018 := by
  exact ⟨by decide, by decide, rfl, rfl⟩

/-! ### Claim C1: step vs JIT-emitted code on quirk-sensitive opcodes -/

/-- Test state for C1: opcode 8126 (V1 >>= V2) at 0x200 with V1 = 2,
V2 = 1 and the shifting quirk on (the LSCHIP/MSCHIP setting). -/
def c1St : Chip8 :=
  { zeroState with
    mem := fun a => if a = 0x200 then 0x81 else if a = 0x201 then 0x26 else 0
    regs := fun a => if a = 1 then 2 else if a = 2 then 1 else 0
    quirkShifting := true }

/-- C1: with quirk_shifting on, the interpreter shifts VX (step on 8126
yields V1 = 1, VF = 0) while the code emitted by compile_ins for 8XY6
always shifts VY (yielding V1 = 0, VF = 1) — the two execution paths
diverge on the same architectural state, although the opcode is in the
JIT's jittable set, so run_block would compile and execute the 8XY6
template instead of falling back to the interpreter. -/
theorem c1_jit_interp_divergence :
    (stepOr c1St).regs 1 = 1 ∧ (stepOr c1St).regs 15 = 0
    ∧ (jitShr c1St 1 2).regs 1 = 0 ∧ (jitShr c1St 1 2).regs 15 = 1
    ∧ jittable c1St 0x200 = true := by decide

/-! ### Claim C2: the jittable set -/

/-- The jittable set as the claim words it (spec §4.5): 00E0/00EE/00FE/
00FF, 1NNN..4XNN, 5XY0/5XY2/5XY3, 6XNN..9XY0, ANNN, CXNN, DXYN,
EX9E/EXA1, F000 and FX07/FX0A/FX15/FX18/FX1E/FX33/FX55/FX65.  This
definition follows the spec's words, for comparison with jittableOp,
which is translated from the source. -/
def claimedJittable (op : Nat) : Bool :=
  let n0 := op / 4096
  let n := op % 16
  let nn := op % 256
  op = 0x00e0 || op = 0x00ee || op = 0x00fe || op = 0x00ff ||
  (1 ≤ n0 && n0 ≤ 4) ||
  (n0 = 5 && (n = 0 || n = 2 || n = 3)) ||
  (6 ≤ n0 && n0 ≤ 8) || (n0 = 9 && n = 0) ||
  n0 = 0xa || n0 = 0xc || n0 = 0xd ||
  (n0 = 0xe && (nn = 0x9e || nn = 0xa1)) ||
  op = 0xf000 ||
  (n0 = 0xf && (nn = 0x07 || nn = 0x0a || nn = 0x15 || nn = 0x18 || nn = 0x1e ||
                nn = 0x33 || nn = 0x55 || nn = 0x65))

/-- Counterexample for C2: CXNN (0xC000) and 5XY2 (0x5102) are in the
claimed jittable set but the source's classifier rejects both, while
EX00 (0xE000, outside every claimed pattern) is classified jittable. -/
theorem c2_jittable_set_counterexample :
    (claimedJittable 0xC000 = true ∧ jittableOp 0xC000 = false)
    ∧ (claimedJittable 0x5102 = true ∧ jittableOp 0x5102 = false)
    ∧ (claimedJittable 0xE000 = false ∧ jittableOp 0xE000 = true) := by decide

/-- C2 (amended): the set of opcodes the JIT translator classifies as
jittable is exactly {00E0, 00EE, 00FE, 00FF} ∪ 1NNN..4XNN ∪ {5XY0}
∪ 6XNN..AXNN (all of 8XYN and 9XYN, every N) ∪ DXYN ∪ EXNN (every NN)
∪ {FX00, FX07, FX0A, FX15, FX18, FX1E, FX33, FX55, FX65} (every X);
in particular 5XY2/5XY3, BNNN and CXNN are non-jittable and fall through
to the interpreter. -/
theorem c2_jittable_set (op : Nat) (hop : op < 65536) :
    jittableOp op = true ↔
      (op = 0xe0 ∨ op = 0xee ∨ op = 0xfe ∨ op = 0xff
       ∨ (0x1000 ≤ op ∧ op < 0x5000)
       ∨ (0x5000 ≤ op ∧ op < 0x6000 ∧ op % 16 = 0)
       ∨ (0x6000 ≤ op ∧ op < 0xb000)
       ∨ (0xd000 ≤ op ∧ op < 0xf000)
       ∨ (0xf000 ≤ op ∧
          (op % 256 = 0x00 ∨ op % 256 = 0x07 ∨ op % 256 = 0x0a ∨ op % 256 = 0x15 ∨
           op % 256 = 0x18 ∨ op % 256 = 0x1e ∨ op % 256 = 0x33 ∨ op % 256 = 0x55 ∨
           op % 256 = 0x65))) := by
  unfold jittableOp
  have h16 : op / 4096 < 16 := by omega
  set k := op / 4096 with hk
  interval_cases k <;>
    simp only [Bool.or_eq_true, decide_eq_true_eq, Bool.and_eq_true] <;>
    norm_num <;>
    omega

/-- Witness for C2: the amended classification applied at the concrete
opcode 0xC000 (CXNN), which is non-jittable. -/
theorem c2_jittable_set_witness :
    jittableOp 0xC000 = true ↔
      ((0xC000 : Nat) = 0xe0 ∨ (0xC000 : Nat) = 0xee ∨ (0xC000 : Nat) = 0xfe ∨
       (0xC000 : Nat) = 0xff
       ∨ (0x1000 ≤ (0xC000 : Nat) ∧ (0xC000 : Nat) < 0x5000)
       ∨ (0x5000 ≤ (0xC000 : Nat) ∧ (0xC000 : Nat) < 0x6000 ∧ (0xC000 : Nat) % 16 = 0)
       ∨ (0x6000 ≤ (0xC000 : Nat) ∧ (0xC000 : Nat) < 0xb000)
       ∨ (0xd000 ≤ (0xC000 : Nat) ∧ (0xC000 : Nat) < 0xf000)
       ∨ (0xf000 ≤ (0xC000 : Nat) ∧
          ((0xC000 : Nat) % 256 = 0x00 ∨ (0xC000 : Nat) % 256 = 0x07 ∨
           (0xC000 : Nat) % 256 = 0x0a ∨ (0xC000 : Nat) % 256 = 0x15 ∨
           (0xC000 : Nat) % 256 = 0x18 ∨ (0xC000 : Nat) % 256 = 0x1e ∨
           (0xC000 : Nat) % 256 = 0x33 ∨ (0xC000 : Nat) % 256 = 0x55 ∨
           (0xC000 : Nat) % 256 = 0x65))) :=
  c2_jittable_set 0xC000 (by norm_num)

/-! ### Claims C9 and C10: the memory-access oracle -/

lemma checkMemAccess_eq (s : Chip8) (hh : s.halted = false) :
    checkMemAccess s = checkMemOp s (fetch16 s s.pc) := by
  unfold checkMemAccess; rw [hh]; norm_num

lemma checkMemOp_52 (s : Chip8) (op : Nat) (h5 : op / 4096 = 5) (h2 : op % 16 = 2)
    (hsys : s.system = Chip8System.XOCHIP) :
    checkMemOp s op = (List.range ((op / 16 % 16 + 65536 - op / 256 % 16) % 65536 + 1)).map
      (fun k => ((s.i + k) % 65536, false)) := by
  unfold checkMemOp
  rw [h5, h2]
  norm_num [hsys]

lemma checkMemOp_53 (s : Chip8) (op : Nat) (h5 : op / 4096 = 5) (h3 : op % 16 = 3)
    (hsys : s.system = Chip8System.XOCHIP) :
    checkMemOp s op = (List.range ((op / 16 % 16 + 65536 - op / 256 % 16) % 65536 + 1)).map
      (fun k => ((s.i + k) % 65536, true)) := by
  unfold checkMemOp
  rw [h5, h3]
  norm_num [hsys]

lemma checkMemOp_5_nonxo (s : Chip8) (op : Nat) (h5 : op / 4096 = 5)
    (h23 : op % 16 = 2 ∨ op % 16 = 3) (hsys : s.system ≠ Chip8System.XOCHIP) :
    checkMemOp s op = [] := by
  unfold checkMemOp
  rcases h23 with h | h <;> rw [h5, h] <;> norm_num [hsys]

lemma checkMemOp_d (s : Chip8) (op : Nat) (hd : op / 4096 = 0xd) :
    checkMemOp s op = (List.range ((if op % 16 = 0 then 32 else op % 16) * popcount8 (s.plane % 256))).map
      (fun k => ((s.i + k) % 65536, true)) := by
  unfold checkMemOp
  rw [hd]
  norm_num

lemma checkMemOp_f (s : Chip8) (op : Nat) (hf : op / 4096 = 0xf) :
    checkMemOp s op =
      (if op % 256 = 0x02 then
        (if op / 256 % 16 = 0 then (List.range 16).map (fun k => ((s.i + k) % 65536, true)) else [])
      else if op % 256 = 0x33 then
        [(s.i % 65536, false), ((s.i + 1) % 65536, false), ((s.i + 2) % 65536, false)]
      else if op % 256 = 0x55 then
        (List.range (op / 256 % 16 + 1)).map (fun k => ((s.i + k) % 65536, false))
      else if op % 256 = 0x65 then
        (List.range (op / 256 % 16 + 1)).map (fun k => ((s.i + k) % 65536, true))
      else []) := by
  unfold checkMemOp
  rw [hf]
  norm_num

lemma checkMemOp_other (s : Chip8) (op : Nat)
    (h5n : ¬(op / 4096 = 5 ∧ (op % 16 = 2 ∨ op % 16 = 3)))
    (hdn : op / 4096 ≠ 0xd)
    (hfn : ¬(op / 4096 = 0xf ∧ ((op % 256 = 0x02 ∧ op / 256 % 16 = 0) ∨ op % 256 = 0x33 ∨
             op % 256 = 0x55 ∨ op % 256 = 0x65))) :
    checkMemOp s op = [] := by
  unfold checkMemOp
  by_cases h5 : op / 4096 = 5
  · rw [h5]
    have h2 : ¬ op % 16 = 2 := fun hc => h5n ⟨h5, Or.inl hc⟩
    have h3 : ¬ op % 16 = 3 := fun hc => h5n ⟨h5, Or.inr hc⟩
    norm_num [h2, h3]
  · rw [if_neg (by omega), if_neg (by omega)]
    by_cases hf : op / 4096 = 0xf
    · rw [if_pos (by omega)]
      by_cases h02 : op % 256 = 2
      · have hx0 : ¬ op / 256 % 16 = 0 := fun hc => hfn ⟨hf, Or.inl ⟨h02, hc⟩⟩
        rw [if_pos (by omega), if_neg hx0]
      · have h33 : ¬ op % 256 = 0x33 := fun hc => hfn ⟨hf, Or.inr (Or.inl hc)⟩
        have h55 : ¬ op % 256 = 0x55 := fun hc => hfn ⟨hf, Or.inr (Or.inr (Or.inl hc))⟩
        have h65 : ¬ op % 256 = 0x65 := fun hc => hfn ⟨hf, Or.inr (Or.inr (Or.inr hc))⟩
        rw [if_neg h02, if_neg h33, if_neg h55, if_neg h65]
    · rw [if_neg (by omega)]

/-- Test state for the C9 counterexample: opcode D000 (16×16 sprite) at
0x200 with I = 0x300 and plane mask 1. -/
def c9CexSt : Chip8 :=
  { zeroState with
    mem := fun a => if a = 0x200 then 0xD0 else 0
    i := 0x300 }

/-- Counterexample for C9: for DXYN with N = 0 the oracle enumerates
num_bytes × popcount(plane) = 32 reads (two bytes per row of the 16×16
sprite), not N_rows × popcount(plane) = 16 as the claim words it. -/
theorem c9_oracle_counterexample :
    (checkMemAccess c9CexSt).length = 32 ∧ popcount8 (c9CexSt.plane % 256) = 1
    ∧ (checkMemAccess c9CexSt).length ≠ 16 * popcount8 (c9CexSt.plane % 256) := by
  refine ⟨by decide, by decide, by decide⟩

/-- C9 (amended): check_mem_access returns empty when halted; for
XO-CHIP 5XY2/5XY3 with X ≤ Y the addresses I..I+(Y-X) as writes resp.
reads (and empty on non-XO-CHIP systems); for DXYN, num_bytes ×
popcount(plane_mask) reads starting at I, where num_bytes is N when
N ≠ 0 and 32 for the 16×16 form N = 0; for F002, 16 reads at I; for
FX33, 3 writes at I..I+2; for FX55, X+1 writes at I..; for FX65, X+1
reads at I..; and the empty list for every other opcode. -/
theorem c9_mem_access_oracle :
    (∀ s, s.halted = true → checkMemAccess s = [])
    ∧ (∀ s op x y, s.halted = false → op = fetch16 s s.pc →
        x = op / 256 % 16 → y = op / 16 % 16 →
        (op / 4096 = 5 → op % 16 = 2 → s.system = Chip8System.XOCHIP → x ≤ y →
          checkMemAccess s = (List.range (y - x + 1)).map (fun k => ((s.i + k) % 65536, false)))
        ∧ (op / 4096 = 5 → op % 16 = 3 → s.system = Chip8System.XOCHIP → x ≤ y →
          checkMemAccess s = (List.range (y - x + 1)).map (fun k => ((s.i + k) % 65536, true)))
        ∧ (op / 4096 = 5 → (op % 16 = 2 ∨ op % 16 = 3) → s.system ≠ Chip8System.XOCHIP →
          checkMemAccess s = [])
        ∧ (op / 4096 = 0xd →
          checkMemAccess s = (List.range ((if op % 16 = 0 then 32 else op % 16) * popcount8 (s.plane % 256))).map (fun k => ((s.i + k) % 65536, true)))
        ∧ (op / 4096 = 0xf → op % 256 = 0x02 → x = 0 →
          checkMemAccess s = (List.range 16).map (fun k => ((s.i + k) % 65536, true)))
        ∧ (op / 4096 = 0xf → op % 256 = 0x33 →
          checkMemAccess s = [(s.i % 65536, false), ((s.i + 1) % 65536, false), ((s.i + 2) % 65536, false)])
        ∧ (op / 4096 = 0xf → op % 256 = 0x55 →
          checkMemAccess s = (List.range (x + 1)).map (fun k => ((s.i + k) % 65536, false)))
        ∧ (op / 4096 = 0xf → op % 256 = 0x65 →
          checkMemAccess s = (List.range (x + 1)).map (fun k => ((s.i + k) % 65536, true)))
        ∧ (¬(op / 4096 = 5 ∧ (op % 16 = 2 ∨ op % 16 = 3)) → op / 4096 ≠ 0xd →
           ¬(op / 4096 = 0xf ∧ ((op % 256 = 0x02 ∧ x = 0) ∨ op % 256 = 0x33 ∨
              op % 256 = 0x55 ∨ op % 256 = 0x65)) →
          checkMemAccess s = [])) := by
  refine ⟨?_, ?_⟩
  · intro s hh
    unfold checkMemAccess
    rw [hh]
    norm_num
  · intro s op x y hh hop hx hy
    subst hop
    subst hx
    subst hy
    refine ⟨?_, ?_, ?_, ?_, ?_, ?_, ?_, ?_, ?_⟩
    · intro h5 h2 hsys hxy
      rw [checkMemAccess_eq s hh, checkMemOp_52 s _ h5 h2 hsys]
      have e : (fetch16 s s.pc / 16 % 16 + 65536 - fetch16 s s.pc / 256 % 16) % 65536 + 1
          = fetch16 s s.pc / 16 % 16 - fetch16 s s.pc / 256 % 16 + 1 := by omega
      rw [e]
    · intro h5 h3 hsys hxy
      rw [checkMemAccess_eq s hh, checkMemOp_53 s _ h5 h3 hsys]
      have e : (fetch16 s s.pc / 16 % 16 + 65536 - fetch16 s s.pc / 256 % 16) % 65536 + 1
          = fetch16 s s.pc / 16 % 16 - fetch16 s s.pc / 256 % 16 + 1 := by omega
      rw [e]
    · intro h5 h23 hsys
      rw [checkMemAccess_eq s hh, checkMemOp_5_nonxo s _ h5 h23 hsys]
    · intro hd
      rw [checkMemAccess_eq s hh, checkMemOp_d s _ hd]
    · intro hf h02 hx0
      rw [checkMemAccess_eq s hh, checkMemOp_f s _ hf, if_pos h02, if_pos hx0]
    · intro hf h33
      rw [checkMemAccess_eq s hh, checkMemOp_f s _ hf, if_neg (by omega), if_pos h33]
    · intro hf h55
      rw [checkMemAccess_eq s hh, checkMemOp_f s _ hf, if_neg (by omega), if_neg (by omega),
          if_pos h55]
    · intro hf h65
      rw [checkMemAccess_eq s hh, checkMemOp_f s _ hf, if_neg (by omega), if_neg (by omega),
          if_neg (by omega), if_pos h65]
    · intro h5n hdn hfn
      rw [checkMemAccess_eq s hh, checkMemOp_other s _ h5n hdn hfn]

/-- Test state for the C9 witness: opcode F033 at 0x200 with I = 0x400. -/
def c9w33St : Chip8 :=
  { zeroState with
    mem := fun a => if a = 0x200 then 0xF0 else if a = 0x201 then 0x33 else 0
    i := 0x400 }

/-- Witness for C9: the FX33 clause applied at a concrete state. -/
theorem c9_mem_access_oracle_witness :
    checkMemAccess c9w33St = [(c9w33St.i % 65536, false), ((c9w33St.i + 1) % 65536, false),
      ((c9w33St.i + 2) % 65536, false)] :=
  (c9_mem_access_oracle.2 c9w33St (fetch16 c9w33St c9w33St.pc)
      (fetch16 c9w33St c9w33St.pc / 256 % 16) (fetch16 c9w33St c9w33St.pc / 16 % 16)
      rfl rfl rfl rfl).2.2.2.2.2.1 (by decide) (by decide)

/-- Test state for C10: opcode 5102 (save V1..V0, Y < X) at 0x200 on
XO-CHIP. -/
def c10St : Chip8 :=
  { zeroState with
    mem := fun a => if a = 0x200 then 0x51 else if a = 0x201 then 0x02 else 0 }

/-- C10: for an XO-CHIP 5XY2 with Y < X the interpreter performs no
memory access (the Rust range x..=y is empty, so step only advances PC),
but check_mem_access computes y - x in u16 arithmetic, which underflows
to 0xFFFF and yields 65536 access pairs instead of the empty list (in a
debug build the subtraction overflow panics). -/
theorem c10_oracle_underflow :
    (checkMemAccess c10St).length = 65536
    ∧ checkMemAccess c10St ≠ []
    ∧ step c10St = .ok { c10St with pc := 0x202 } := by
  have hlen : (checkMemAccess c10St).length = 65536 := by
    rw [checkMemAccess_eq c10St rfl, checkMemOp_52 c10St _ (by decide) (by decide) rfl]
    simp only [List.length_map, List.length_range]
    decide
  refine ⟨hlen, ?_, rfl⟩
  intro hc
  rw [hc] at hlen
  simp at hlen


def VramLt (s : Chip8) : Prop := ∀ o, s.vram o < 16

lemma or_lt_16 {a b : Nat} (ha : a < 16) (hb : b < 16) : a ||| b < 16 := by
  have := Nat.or_lt_two_pow (n := 4) ha hb
  simpa using this

lemma xor_lt_16 {a b : Nat} (ha : a < 16) (hb : b < 16) : a ^^^ b < 16 := by
  have := Nat.xor_lt_two_pow (n := 4) ha hb
  simpa using this

lemma and_lt_16_left {a : Nat} (ha : a < 16) (m : Nat) : a &&& m < 16 :=
  lt_of_le_of_lt (Nat.and_le_left) ha

lemma updf_lt {v : Nat → Nat} (hv : ∀ o, v o < 16) {w : Nat} (hw : w < 16) (k : Nat) :
    ∀ o, updf v k w o < 16 := by
  intro o
  unfold updf
  split
  · exact hw
  · exact hv o

lemma foldl_preserve {α : Type} (P : (Nat → Nat) → Prop) (f : (Nat → Nat) → α → (Nat → Nat))
    (l : List α) (v : Nat → Nat) (h : P v) (hstep : ∀ w a, P w → P (f w a)) :
    P (l.foldl f v) := by
  induction l generalizing v with
  | nil => exact h
  | cons a l ih => exact ih _ (hstep _ _ h)

lemma clearPlanes_lt {v : Nat → Nat} (hv : ∀ o, v o < 16) (pl : Nat) :
    ∀ o, clearPlanes v pl o < 16 := by
  unfold clearPlanes
  apply foldl_preserve (fun w => ∀ o, w o < 16) _ _ _ hv
  intro w a hw
  exact updf_lt hw (and_lt_16_left (hw a) _) a

lemma scrollDownOnce_lt {v : Nat → Nat} (hv : ∀ o, v o < 16) (pl n : Nat) :
    ∀ o, scrollDownOnce pl n v o < 16 := by
  unfold scrollDownOnce
  apply foldl_preserve (fun w => ∀ o, w o < 16) _ _ _ hv
  intro w col hw
  apply foldl_preserve (fun w => ∀ o, w o < 16)
  · apply foldl_preserve (fun w => ∀ o, w o < 16) _ _ _ hw
    intro u a hu
    exact updf_lt hu (or_lt_16 (and_lt_16_left (hu _) _) (and_lt_16_left (hu _) _)) _
  · intro u a hu
    exact updf_lt hu (and_lt_16_left (hu _) _) _

lemma scrollUpOnce_lt {v : Nat → Nat} (hv : ∀ o, v o < 16) (pl n : Nat) :
    ∀ o, scrollUpOnce pl n v o < 16 := by
  unfold scrollUpOnce
  apply foldl_preserve (fun w => ∀ o, w o < 16) _ _ _ hv
  intro w col hw
  apply foldl_preserve (fun w => ∀ o, w o < 16)
  · apply foldl_preserve (fun w => ∀ o, w o < 16) _ _ _ hw
    intro u a hu
    exact updf_lt hu (or_lt_16 (and_lt_16_left (hu _) _) (and_lt_16_left (hu _) _)) _
  · intro u a hu
    exact updf_lt hu (and_lt_16_left (hu _) _) _

lemma scrollRightOnce_lt {v : Nat → Nat} (hv : ∀ o, v o < 16) (pl : Nat) :
    ∀ o, scrollRightOnce pl v o < 16 := by
  unfold scrollRightOnce
  apply foldl_preserve (fun w => ∀ o, w o < 16) _ _ _ hv
  intro w row hw
  apply foldl_preserve (fun w => ∀ o, w o < 16)
  · apply foldl_preserve (fun w => ∀ o, w o < 16) _ _ _ hw
    intro u a hu
    exact updf_lt hu (or_lt_16 (and_lt_16_left (hu _) _) (and_lt_16_left (hu _) _)) _
  · intro u a hu
    exact updf_lt hu (and_lt_16_left (hu _) _) _

lemma scrollLeftOnce_lt {v : Nat → Nat} (hv : ∀ o, v o < 16) (pl : Nat) :
    ∀ o, scrollLeftOnce pl v o < 16 := by
  unfold scrollLeftOnce
  apply foldl_preserve (fun w => ∀ o, w o < 16) _ _ _ hv
  intro w row hw
  apply foldl_preserve (fun w => ∀ o, w o < 16)
  · apply foldl_preserve (fun w => ∀ o, w o < 16) _ _ _ hw
    intro u a hu
    exact updf_lt hu (or_lt_16 (and_lt_16_left (hu _) _) (and_lt_16_left (hu _) _)) _
  · intro u a hu
    exact updf_lt hu (and_lt_16_left (hu _) _) _

lemma mem_tEvents {mem : Nat → Nat} {src p : Nat} {hires clip : Bool}
    {sx bw k yy t : Nat} {ev : Nat × List Nat} :
    ev ∈ tEvents mem src p hires clip sx bw k yy t ↔
      bitOfSprite mem src bw k t = true ∧
      ∃ cc, colFor hires clip sx t = some cc ∧ ev = (p, blockOffsets hires yy cc) := by
  unfold tEvents
  cases hcol : colFor hires clip sx t with
  | none => by_cases hbit : bitOfSprite mem src bw k t <;> simp [hbit]
  | some cc => by_cases hbit : bitOfSprite mem src bw k t <;> simp [hbit]

lemma mem_kEvents {mem : Nat → Nat} {src p : Nat} {hires clip : Bool}
    {sx sy bw k : Nat} {ev : Nat × List Nat} :
    ev ∈ kEvents mem src p hires clip sx sy bw k ↔
      ∃ yy, rowFor hires clip sy k = some yy ∧
      ∃ t, t < 8 * bw ∧ ev ∈ tEvents mem src p hires clip sx bw k yy t := by
  unfold kEvents
  cases hrow : rowFor hires clip sy k with
  | none => simp
  | some yy =>
    rw [List.mem_flatMap]
    constructor
    · rintro ⟨t, ht, hev⟩
      exact ⟨yy, rfl, t, List.mem_range.mp ht, hev⟩
    · rintro ⟨yy2, hyy, t, ht, hev⟩
      cases hyy
      exact ⟨t, List.mem_range.mpr ht, hev⟩

lemma mem_passEvents {mem : Nat → Nat} {src p : Nat} {hires clip : Bool}
    {sx sy bw rows : Nat} {ev : Nat × List Nat} :
    ev ∈ passEvents mem src p hires clip sx sy bw rows ↔
      ∃ k, k < rows ∧ ∃ yy, rowFor hires clip sy k = some yy ∧
      ∃ t, t < 8 * bw ∧ bitOfSprite mem src bw k t = true ∧
      ∃ cc, colFor hires clip sx t = some cc ∧ ev = (p, blockOffsets hires yy cc) := by
  unfold passEvents
  rw [List.mem_flatMap]
  constructor
  · rintro ⟨k, hk, hev⟩
    rw [List.mem_range] at hk
    rw [mem_kEvents] at hev
    obtain ⟨yy, hrow, t, ht, hev⟩ := hev
    rw [mem_tEvents] at hev
    obtain ⟨hbit, cc, hcol, hev⟩ := hev
    exact ⟨k, hk, yy, hrow, t, ht, hbit, cc, hcol, hev⟩
  · rintro ⟨k, hk, yy, hrow, t, ht, hbit, cc, hcol, hev⟩
    refine ⟨k, List.mem_range.mpr hk, ?_⟩
    rw [mem_kEvents]
    refine ⟨yy, hrow, t, ht, ?_⟩
    rw [mem_tEvents]
    exact ⟨hbit, cc, hcol, hev⟩

lemma mem_spriteEvents {mem : Nat → Nat} {i0 pl : Nat} {hires clip : Bool}
    {sx sy n : Nat} {ev : Nat × List Nat} :
    ev ∈ spriteEvents mem i0 pl hires clip sx sy n ↔
      ∃ pi, pi < 4 ∧ pl &&& 2 ^ pi ≠ 0 ∧
        ev ∈ passEvents mem (i0 + (if n = 0 then 32 else n) * countBelow pl pi) (2 ^ pi)
          hires clip sx sy (if n = 0 then 2 else 1)
          ((if n = 0 then 32 else n) / (if n = 0 then 2 else 1)) := by
  unfold spriteEvents
  rw [List.mem_flatMap]
  constructor
  · rintro ⟨pi, hpi, hev⟩
    rw [List.mem_range] at hpi
    by_cases hact : pl &&& 2 ^ pi ≠ 0
    · rw [if_pos hact] at hev
      exact ⟨pi, hpi, hact, hev⟩
    · rw [if_neg hact] at hev
      simp at hev
  · rintro ⟨pi, hpi, hact, hev⟩
    refine ⟨pi, List.mem_range.mpr hpi, ?_⟩
    rw [if_pos hact]
    exact hev

lemma spriteEvents_fst {mem : Nat → Nat} {i0 pl : Nat} {hires clip : Bool}
    {sx sy n : Nat} {ev : Nat × List Nat}
    (hev : ev ∈ spriteEvents mem i0 pl hires clip sx sy n) :
    ∃ pi, pi < 4 ∧ ev.1 = 2 ^ pi := by
  rw [mem_spriteEvents] at hev
  obtain ⟨pi, hpi, _, hev⟩ := hev
  rw [mem_passEvents] at hev
  obtain ⟨k, _, yy, _, t, _, _, cc, _, hev⟩ := hev
  exact ⟨pi, hpi, by rw [hev]⟩

lemma toggleAll_lt {p : Nat} (hp : p < 16) :
    ∀ (offs : List Nat) (v : Nat → Nat), (∀ o, v o < 16) → ∀ o, toggleAll p v offs o < 16 := by
  intro offs
  induction offs with
  | nil => intro v hv; exact hv
  | cons a rest ih =>
    intro v hv
    exact ih _ (updf_lt hv (xor_lt_16 (hv a) hp) a)

lemma applyEvents_fst_lt :
    ∀ (evs : List (Nat × List Nat)) (v : Nat → Nat) (b : Bool),
      (∀ ev ∈ evs, ev.1 < 16) → (∀ o, v o < 16) → ∀ o, (applyEvents v b evs).1 o < 16 := by
  intro evs
  induction evs with
  | nil => intro v b hev hv; exact hv
  | cons ev rest ih =>
    intro v b hev hv
    unfold applyEvents
    exact ih _ _ (fun e he => hev e (List.mem_cons_of_mem _ he))
      (toggleAll_lt (hev ev (List.mem_cons_self _ _)) _ _ hv)

lemma drawCore_vram_lt (s : Chip8) (clip : Bool) (x y n : Nat) (hv : ∀ o, s.vram o < 16) :
    ∀ o, (drawCore s clip x y n).vram o < 16 := by
  unfold drawCore
  apply applyEvents_fst_lt
  · intro ev hev
    obtain ⟨pi, hpi, hfst⟩ := spriteEvents_fst hev
    rw [hfst]
    interval_cases pi <;> norm_num
  · exact hv

section StepVram

attribute [local irreducible] clearPlanes scrollDownOnce scrollUpOnce scrollRightOnce scrollLeftOnce

lemma skipIns_vram (s : Chip8) : (skipIns s).vram = s.vram := by
  unfold skipIns; split <;> rfl

lemma stepHalted_vram (s : Chip8) : (stepHalted s).vram = s.vram := by
  unfold stepHalted
  split
  · split <;> rfl
  · split <;> rfl

lemma vramLt_ite_skip (s : Chip8) (c : Prop) [Decidable c] (hv : VramLt s) :
    VramLt (if c then skipIns s else s) := by
  split
  · intro o; rw [skipIns_vram]; exact hv o
  · exact hv

lemma scrollDown_vram_lt (s : Chip8) (n : Nat) (hv : VramLt s) : VramLt (scrollDown s n) := by
  unfold scrollDown
  split
  · exact hv
  split
  · exact hv
  · exact foldl_preserve (fun w => ∀ o, w o < 16) _ _ _ hv
      (fun w a hw => scrollDownOnce_lt hw _ _)

lemma scrollUp_vram_lt (s : Chip8) (n : Nat) (hv : VramLt s) : VramLt (scrollUp s n) := by
  unfold scrollUp
  split
  · exact hv
  split
  · exact hv
  · exact foldl_preserve (fun w => ∀ o, w o < 16) _ _ _ hv
      (fun w a hw => scrollUpOnce_lt hw _ _)

lemma scrollRight_vram_lt (s : Chip8) (hv : VramLt s) : VramLt (scrollRight s) := by
  unfold scrollRight
  split
  · exact hv
  · exact foldl_preserve (fun w => ∀ o, w o < 16) _ _ _ hv
      (fun w a hw => scrollRightOnce_lt hw _)

lemma scrollLeft_vram_lt (s : Chip8) (hv : VramLt s) : VramLt (scrollLeft s) := by
  unfold scrollLeft
  split
  · exact hv
  · exact foldl_preserve (fun w => ∀ o, w o < 16) _ _ _ hv
      (fun w a hw => scrollLeftOnce_lt hw _)

lemma exec0_vram (s s2 : Chip8) (op nnn n : Nat) (hv : VramLt s)
    (he : exec0 s op nnn n = .ok s2) : VramLt s2 := by
  unfold exec0 at he
  by_cases h1 : 0xc0 ≤ nnn ∧ nnn ≤ 0xcf
  · rw [if_pos h1] at he; cases he; exact scrollDown_vram_lt _ _ hv
  rw [if_neg h1] at he
  by_cases h2 : 0xd0 ≤ nnn ∧ nnn ≤ 0xdf
  · rw [if_pos h2] at he; cases he; exact scrollUp_vram_lt _ _ hv
  rw [if_neg h2] at he
  by_cases h3 : nnn = 0xe0
  · rw [if_pos h3] at he; cases he; intro o; exact clearPlanes_lt hv _ o
  rw [if_neg h3] at he
  by_cases h4 : nnn = 0xee
  · rw [if_pos h4] at he; cases he; intro o; exact hv o
  rw [if_neg h4] at he
  by_cases h5 : nnn = 0xfb
  · rw [if_pos h5] at he; cases he; exact scrollRight_vram_lt _ hv
  rw [if_neg h5] at he
  by_cases h6 : nnn = 0xfc
  · rw [if_pos h6] at he; cases he; exact scrollLeft_vram_lt _ hv
  rw [if_neg h6] at he
  by_cases h7 : nnn = 0xfd
  · rw [if_pos h7] at he
    by_cases h8 : s.system = Chip8System.CHIP8
    · rw [if_pos h8] at he; cases he; intro o; exact hv o
    · rw [if_neg h8] at he; cases he
  rw [if_neg h7] at he
  by_cases h9 : nnn = 0xfe
  · rw [if_pos h9] at he; cases he; split <;> (intro o; exact hv o)
  rw [if_neg h9] at he
  by_cases h10 : nnn = 0xff
  · rw [if_pos h10] at he; cases he; split <;> (intro o; exact hv o)
  rw [if_neg h10] at he
  cases he

lemma exec5_vram (s s2 : Chip8) (op x y n : Nat) (hv : VramLt s)
    (he : exec5 s op x y n = .ok s2) : VramLt s2 := by
  unfold exec5 at he
  by_cases h0 : n = 0
  · rw [if_pos h0] at he; cases he; exact vramLt_ite_skip s _ hv
  rw [if_neg h0] at he
  by_cases h2 : n = 2
  · rw [if_pos h2] at he
    by_cases hs : s.system ≠ Chip8System.XOCHIP
    · rw [if_pos hs] at he; cases he; intro o; exact hv o
    · rw [if_neg hs] at he; cases he; intro o; exact hv o
  rw [if_neg h2] at he
  by_cases h3 : n = 3
  · rw [if_pos h3] at he
    by_cases hs : s.system ≠ Chip8System.XOCHIP
    · rw [if_pos hs] at he; cases he; intro o; exact hv o
    · rw [if_neg hs] at he; cases he; intro o; exact hv o
  rw [if_neg h3] at he
  cases he

lemma exec8_vram (s s2 : Chip8) (op x y n : Nat) (hv : VramLt s)
    (he : exec8 s op x y n = .ok s2) : VramLt s2 := by
  unfold exec8 at he
  by_cases h0 : n = 0
  · rw [if_pos h0] at he; cases he; intro o; exact hv o
  rw [if_neg h0] at he
  by_cases h1 : n = 1
  · rw [if_pos h1] at he; cases he; intro o; exact hv o
  rw [if_neg h1] at he
  by_cases h2 : n = 2
  · rw [if_pos h2] at he; cases he; intro o; exact hv o
  rw [if_neg h2] at he
  by_cases h3 : n = 3
  · rw [if_pos h3] at he; cases he; intro o; exact hv o
  rw [if_neg h3] at he
  by_cases h4 : n = 4
  · rw [if_pos h4] at he; cases he; intro o; exact hv o
  rw [if_neg h4] at he
  by_cases h5 : n = 5
  · rw [if_pos h5] at he; cases he; intro o; exact hv o
  rw [if_neg h5] at he
  by_cases h6 : n = 6
  · rw [if_pos h6] at he; cases he; intro o; exact hv o
  rw [if_neg h6] at he
  by_cases h7 : n = 7
  · rw [if_pos h7] at he; cases he; intro o; exact hv o
  rw [if_neg h7] at he
  by_cases h8 : n = 0xe
  · rw [if_pos h8] at he; cases he; intro o; exact hv o
  rw [if_neg h8] at he
  cases he

lemma execE_vram (s s2 : Chip8) (op x nn : Nat) (hv : VramLt s)
    (he : execE s op x nn = .ok s2) : VramLt s2 := by
  unfold execE at he
  by_cases h1 : nn = 0x9e
  · rw [if_pos h1] at he; cases he; exact vramLt_ite_skip s _ hv
  rw [if_neg h1] at he
  by_cases h2 : nn = 0xa1
  · rw [if_pos h2] at he; cases he; exact vramLt_ite_skip s _ hv
  rw [if_neg h2] at he
  cases he

lemma execSaveFlags_vram (s : Chip8) (x : Nat) : (execSaveFlags s x).vram = s.vram := by
  unfold execSaveFlags; split <;> rfl

lemma execLoadFlags_vram (s : Chip8) (x : Nat) : (execLoadFlags s x).vram = s.vram := by
  unfold execLoadFlags
  split
  · rfl
  · cases hf : s.flagsFile with
    | none => rfl
    | some f => rfl

lemma execF_vram (s s2 : Chip8) (op x nn : Nat) (hv : VramLt s)
    (he : execF s op x nn = .ok s2) : VramLt s2 := by
  unfold execF at he
  by_cases h00 : nn = 0x00
  · rw [if_pos h00] at he
    by_cases hx : x = 0
    · rw [if_pos hx] at he
      by_cases hs : s.system ≠ Chip8System.XOCHIP
      · rw [if_pos hs] at he; cases he; intro o; exact hv o
      · rw [if_neg hs] at he; cases he; intro o; exact hv o
    · rw [if_neg hx] at he; cases he; intro o; exact hv o
  rw [if_neg h00] at he
  by_cases h01 : nn = 0x01
  · rw [if_pos h01] at he; cases he; split <;> (intro o; exact hv o)
  rw [if_neg h01] at he
  by_cases h02 : nn = 0x02
  · rw [if_pos h02] at he
    by_cases hx : x = 0
    · rw [if_pos hx] at he
      by_cases hs : s.system ≠ Chip8System.XOCHIP
      · rw [if_pos hs] at he; cases he; intro o; exact hv o
      · rw [if_neg hs] at he; cases he; intro o; exact hv o
    · rw [if_neg hx] at he; cases he; intro o; exact hv o
  rw [if_neg h02] at he
  by_cases h07 : nn = 0x07
  · rw [if_pos h07] at he; cases he; intro o; exact hv o
  rw [if_neg h07] at he
  by_cases h0a : nn = 0x0a
  · rw [if_pos h0a] at he; cases he; intro o; exact hv o
  rw [if_neg h0a] at he
  by_cases h15 : nn = 0x15
  · rw [if_pos h15] at he; cases he; intro o; exact hv o
  rw [if_neg h15] at he
  by_cases h18 : nn = 0x18
  · rw [if_pos h18] at he; cases he; intro o; exact hv o
  rw [if_neg h18] at he
  by_cases h1e : nn = 0x1e
  · rw [if_pos h1e] at he; cases he; intro o; exact hv o
  rw [if_neg h1e] at he
  by_cases h29 : nn = 0x29
  · rw [if_pos h29] at he; cases he; intro o; exact hv o
  rw [if_neg h29] at he
  by_cases h30 : nn = 0x30
  · rw [if_pos h30] at he; cases he; split <;> (intro o; exact hv o)
  rw [if_neg h30] at he
  by_cases h33 : nn = 0x33
  · rw [if_pos h33] at he; cases he; intro o; exact hv o
  rw [if_neg h33] at he
  by_cases h3a : nn = 0x3a
  · rw [if_pos h3a] at he; cases he; split <;> (intro o; exact hv o)
  rw [if_neg h3a] at he
  by_cases h55 : nn = 0x55
  · rw [if_pos h55] at he; cases he; intro o; exact hv o
  rw [if_neg h55] at he
  by_cases h65 : nn = 0x65
  · rw [if_pos h65] at he; cases he; intro o; exact hv o
  rw [if_neg h65] at he
  by_cases h75 : nn = 0x75
  · rw [if_pos h75] at he; cases he; intro o; rw [execSaveFlags_vram]; exact hv o
  rw [if_neg h75] at he
  by_cases h85 : nn = 0x85
  · rw [if_pos h85] at he; cases he; intro o; rw [execLoadFlags_vram]; exact hv o
  rw [if_neg h85] at he
  cases he

lemma postDispWait_vram (t : Chip8) : (postDispWait t).vram = t.vram := by
  unfold postDispWait
  split <;> rfl

lemma execDraw_vram_lt (s : Chip8) (x y n : Nat) (hv : VramLt s) :
    VramLt (execDraw s x y n) := by
  unfold execDraw
  intro o
  rw [postDispWait_vram]
  exact drawCore_vram_lt s _ x y n hv o

lemma stepOp_vram (s s2 : Chip8) (op : Nat) (hop : op < 65536) (hv : VramLt s)
    (he : stepOp s op = .ok s2) : VramLt s2 := by
  have h16 : op / 4096 < 16 := by omega
  set k := op / 4096 with hk
  interval_cases k
  · rw [stepOp_0 s op hk.symm] at he
    exact exec0_vram _ _ _ _ _ hv he
  · rw [stepOp_1 s op hk.symm] at he; cases he; intro o; exact hv o
  · rw [stepOp_2 s op hk.symm] at he; cases he; intro o; exact hv o
  · rw [stepOp_3 s op hk.symm] at he; cases he; exact vramLt_ite_skip s _ hv
  · rw [stepOp_4 s op hk.symm] at he; cases he; exact vramLt_ite_skip s _ hv
  · rw [stepOp_5 s op hk.symm] at he
    exact exec5_vram _ _ _ _ _ _ hv he
  · rw [stepOp_6 s op hk.symm] at he; cases he; intro o; exact hv o
  · rw [stepOp_7 s op hk.symm] at he; cases he; intro o; exact hv o
  · rw [stepOp_8 s op hk.symm] at he
    exact exec8_vram _ _ _ _ _ _ hv he
  · rw [stepOp_9 s op hk.symm] at he
    by_cases hn : op % 16 = 0
    · rw [if_pos hn] at he; cases he; exact vramLt_ite_skip s _ hv
    · rw [if_neg hn] at he; cases he; intro o; exact hv o
  · rw [stepOp_a s op hk.symm] at he; cases he; intro o; exact hv o
  · rw [stepOp_b s op hk.symm] at he; cases he; intro o; exact hv o
  · rw [stepOp_c s op hk.symm] at he; cases he; intro o; exact hv o
  · rw [stepOp_d s op hk.symm] at he
    cases he
    exact execDraw_vram_lt _ _ _ _ hv
  · rw [stepOp_e s op hk.symm] at he
    exact execE_vram _ _ _ _ _ hv he
  · rw [stepOp_f s op hk.symm] at he
    exact execF_vram _ _ _ _ _ hv he

lemma step_vram_lt (s s2 : Chip8) (hv : VramLt s) (he : step s = .ok s2) : VramLt s2 := by
  unfold step at he
  by_cases hh : s.halted
  · rw [if_pos hh] at he
    cases he
    intro o
    rw [stepHalted_vram]
    exact hv o
  · rw [if_neg hh] at he
    have hop : s.mem s.pc % 256 * 256 + s.mem ((s.pc + 1) % 65536) % 256 < 65536 := by
      have h1 : s.mem s.pc % 256 < 256 := Nat.mod_lt _ (by norm_num)
      have h2 : s.mem ((s.pc + 1) % 65536) % 256 < 256 := Nat.mod_lt _ (by norm_num)
      omega
    exact stepOp_vram { s with pc := ((s.pc + 1) % 65536 + 1) % 65536 } s2 _ hop
      (fun o => hv o) he

lemma jitDraw_vram_lt (s : Chip8) (x y n : Nat) (hv : VramLt s) : VramLt (jitDraw s x y n) := by
  unfold jitDraw
  exact drawCore_vram_lt s _ x y n hv

lemma jitClear_vram_lt (s : Chip8) (hv : VramLt s) : VramLt (jitClear s) := by
  unfold jitClear
  intro o
  exact clearPlanes_lt hv _ o

lemma stepOr_vram_lt (s : Chip8) (hv : VramLt s) : VramLt (stepOr s) := by
  unfold stepOr
  cases he : step s with
  | ok s2 => exact step_vram_lt _ _ hv he
  | error e => exact hv
  | exited => exact hv

/-- C6: starting from the initial state, every VRAM byte stays in 0..15
under every sequence of interpreter steps and of the VRAM-writing JIT
helpers (xo_draw, xo_clear) — draws XOR only single plane bits 1/2/4/8,
clears and scrolls only mask and recombine existing bytes — so the
16-color palette lookup of draw() is total on reachable VRAM bytes and
never reaches its invalid-color panic arm. -/
theorem c6_vram_palette_invariant :
    (∀ o, chip8New.vram o < 16)
    ∧ (∀ s s2, (∀ o, s.vram o < 16) → step s = .ok s2 → ∀ o, s2.vram o < 16)
    ∧ (∀ s x y n, (∀ o, s.vram o < 16) → ∀ o, (jitDraw s x y n).vram o < 16)
    ∧ (∀ s, (∀ o, s.vram o < 16) → ∀ o, (jitClear s).vram o < 16)
    ∧ (∀ k o, (Nat.iterate stepOr k chip8New).vram o < 16)
    ∧ (∀ b, b < 16 → (palette16 b).isSome = true) := by
  have hinit : ∀ o, chip8New.vram o < 16 := by
    intro o
    show (0 : Nat) < 16
    norm_num
  refine ⟨hinit, fun s s2 hv he => step_vram_lt s s2 hv he,
    fun s x y n hv => jitDraw_vram_lt s x y n hv,
    fun s hv => jitClear_vram_lt s hv, ?_, by decide⟩
  intro k
  induction k with
  | zero => exact hinit
  | succ k ih =>
    rw [Function.iterate_succ_apply']
    exact stepOr_vram_lt _ ih

/-- Witness for C6: the step-preservation clause applied at the concrete
shift state c4on, whose step succeeds. -/
theorem c6_vram_palette_invariant_witness :
    ∀ o, (stepOr c4on).vram o < 16 :=
  c6_vram_palette_invariant.2.1 c4on (stepOr c4on)
    (fun o => by show (0 : Nat) < 16; norm_num) rfl

end StepVram

/-! ### Claim C5: collision-flag machinery -/

/-- The (offset, plane bit) cells touched by a list of plot events. -/
def cellsOf (evs : List (Nat × List Nat)) : List (Nat × Nat) :=
  evs.flatMap (fun ev => ev.2.map (fun o => (o, ev.1)))

lemma cellsOf_nil : cellsOf [] = [] := rfl

lemma cellsOf_cons (ev : Nat × List Nat) (rest : List (Nat × List Nat)) :
    cellsOf (ev :: rest) = ev.2.map (fun o => (o, ev.1)) ++ cellsOf rest := by
  simp [cellsOf]

lemma pow_and_pow_ne {i j : Nat} (hi : i < 4) (hj : j < 4) (hne : i ≠ j) :
    2 ^ i &&& 2 ^ j = 0 := by
  interval_cases i <;> interval_cases j <;> simp at hne ⊢ <;> decide

lemma and_two_pow_cases (a : Nat) (j : Nat) : a &&& 2 ^ j = 0 ∨ a &&& 2 ^ j = 2 ^ j := by
  rw [Nat.and_two_pow]
  cases a.testBit j <;> simp

lemma toggleAll_apply (p : Nat) :
    ∀ (offs : List Nat) (v : Nat → Nat) (o : Nat), offs.Nodup →
      (o ∈ offs → toggleAll p v offs o = v o ^^^ p) ∧
      (o ∉ offs → toggleAll p v offs o = v o) := by
  intro offs
  induction offs with
  | nil =>
    intro v o hnd
    exact ⟨fun h => absurd h (List.not_mem_nil o), fun _ => rfl⟩
  | cons a rest ih =>
    intro v o hnd
    rw [List.nodup_cons] at hnd
    obtain ⟨hanr, hrest⟩ := hnd
    constructor
    · intro ho
      rcases List.mem_cons.mp ho with rfl | hor
      · have h2 := (ih (updf v (v o ^^^ p) (v o ^^^ p)) o hrest).2
        show toggleAll p (updf v o (v o ^^^ p)) rest o = v o ^^^ p
        rw [(ih _ o hrest).2 hanr]
        simp [updf]
      · show toggleAll p (updf v a (v a ^^^ p)) rest o = v o ^^^ p
        rw [(ih _ o hrest).1 hor]
        have hoa : o ≠ a := fun hc => hanr (hc ▸ hor)
        simp [updf, hoa]
    · intro ho
      have hoa : o ≠ a := fun hc => ho (hc ▸ List.mem_cons_self a rest)
      have hor : o ∉ rest := fun hc => ho (List.mem_cons_of_mem _ hc)
      show toggleAll p (updf v a (v a ^^^ p)) rest o = v o
      rw [(ih _ o hrest).2 hor]
      simp [updf, hoa]

lemma testEvent_any (v : Nat → Nat) (p : Nat) (offs : List Nat) :
    testEvent v p offs = offs.any (fun o => v o &&& p != 0) := by
  unfold testEvent
  by_cases h : ∃ o ∈ offs, v o &&& p ≠ 0
  · have h1 : (offs.map (fun o => v o &&& p)).sum ≠ 0 := by
      obtain ⟨o, ho, hne⟩ := h
      intro hsum
      rw [List.sum_eq_zero_iff] at hsum
      exact hne (hsum _ (List.mem_map_of_mem _ ho))
    have h2 : offs.any (fun o => v o &&& p != 0) = true := by
      rw [List.any_eq_true]
      obtain ⟨o, ho, hne⟩ := h
      exact ⟨o, ho, by simpa using hne⟩
    simp [h1, h2]
  · push_neg at h
    have h1 : (offs.map (fun o => v o &&& p)).sum = 0 := by
      rw [List.sum_eq_zero_iff]
      intro w hw
      rw [List.mem_map] at hw
      obtain ⟨o, ho, rfl⟩ := hw
      exact h o ho
    have h2 : offs.any (fun o => v o &&& p != 0) = false := by
      rw [List.any_eq_false]
      intro o ho
      simpa using h o ho
    simp [h1, h2]

lemma any_congr_mem {α : Type} (l : List α) (f g : α → Bool)
    (h : ∀ a ∈ l, f a = g a) : l.any f = l.any g := by
  induction l with
  | nil => rfl
  | cons a rest ih =>
    simp only [List.any_cons]
    rw [h a (List.mem_cons_self a rest), ih (fun b hb => h b (List.mem_cons_of_mem _ hb))]

lemma any_map_eq {α β : Type} (l : List α) (f : α → β) (g : β → Bool) :
    (l.map f).any g = l.any (fun a => g (f a)) := by
  induction l with
  | nil => rfl
  | cons a rest ih => simp [List.any_cons, ih]

lemma mem_cellsOf_plane {rest : List (Nat × List Nat)} {c : Nat × Nat}
    (hokr : ∀ e ∈ rest, ∃ j, j < 4 ∧ e.1 = 2 ^ j)
    (hc : c ∈ cellsOf rest) : ∃ j, j < 4 ∧ c.2 = 2 ^ j := by
  rw [cellsOf, List.mem_flatMap] at hc
  obtain ⟨e, he, hin⟩ := hc
  rw [List.mem_map] at hin
  obtain ⟨o2, ho2, heq⟩ := hin
  obtain ⟨j1, hj1, hp1⟩ := hokr e he
  refine ⟨j1, hj1, ?_⟩
  rw [← heq]
  exact hp1

/-- Core correctness of the test-then-XOR fold: with pairwise-distinct
cells carrying single plane bits, untouched bits are unchanged, touched
bits are toggled exactly once, and the collision flag accumulates exactly
the cells whose bit was set in the incoming VRAM. -/
lemma applyEvents_spec :
    ∀ (evs : List (Nat × List Nat)) (v : Nat → Nat) (xord : Bool),
      (∀ ev ∈ evs, ∃ j, j < 4 ∧ ev.1 = 2 ^ j) →
      (cellsOf evs).Nodup →
      ((∀ o p j, (o, p) ∉ cellsOf evs → j < 4 → p = 2 ^ j →
          (applyEvents v xord evs).1 o &&& p = v o &&& p)
       ∧ (∀ o p, (o, p) ∈ cellsOf evs →
          (applyEvents v xord evs).1 o &&& p = (v o &&& p) ^^^ p)
       ∧ ((applyEvents v xord evs).2 =
          (xord || (cellsOf evs).any (fun c => v c.1 &&& c.2 != 0)))) := by
  intro evs
  induction evs with
  | nil =>
    intro v xord hok hnd
    refine ⟨fun o p j h _ _ => rfl, fun o p h => absurd h (List.not_mem_nil _), ?_⟩
    simp [applyEvents, cellsOf]
  | cons ev rest ih =>
    intro v xord hok hnd
    obtain ⟨j0, hj0, hp0⟩ := hok ev (List.mem_cons_self _ _)
    rw [cellsOf_cons, List.nodup_append] at hnd
    obtain ⟨hnd1, hnd2, hdisj⟩ := hnd
    have hoffs : ev.2.Nodup := by
      have := hnd1
      exact List.Nodup.of_map _ this
    have hokr : ∀ e ∈ rest, ∃ j, j < 4 ∧ e.1 = 2 ^ j :=
      fun e he => hok e (List.mem_cons_of_mem _ he)
    -- the state after the head event
    set v1 := toggleAll ev.1 v ev.2 with hv1
    -- head cells do not change the plane bits of rest cells
    have hhead : ∀ o p j, j < 4 → p = 2 ^ j → (o ∉ ev.2 ∨ p ≠ ev.1) →
        v1 o &&& p = v o &&& p := by
      intro o p j hj hp hcase
      rcases hcase with hno | hpne
      · rw [hv1, (toggleAll_apply ev.1 ev.2 v o hoffs).2 hno]
      · by_cases ho : o ∈ ev.2
        · rw [hv1, (toggleAll_apply ev.1 ev.2 v o hoffs).1 ho,
              Nat.and_xor_distrib_right]
          have hz : ev.1 &&& p = 0 := by
            rw [hp0, hp]
            apply pow_and_pow_ne hj0 hj
            intro hc
            exact hpne (by rw [hp, hp0, hc])
          rw [hz, Nat.xor_zero]
        · rw [hv1, (toggleAll_apply ev.1 ev.2 v o hoffs).2 ho]
    have ihr := ih v1 (xord || testEvent v ev.1 ev.2) hokr hnd2
    have happ : applyEvents v xord (ev :: rest)
        = applyEvents v1 (xord || testEvent v ev.1 ev.2) rest := rfl
    refine ⟨?_, ?_, ?_⟩
    · -- untouched
      intro o p j hnot hj hp
      rw [happ]
      have hnr : (o, p) ∉ cellsOf rest := by
        intro hc
        exact hnot (by rw [cellsOf_cons]; exact List.mem_append_right _ hc)
      rw [ihr.1 o p j hnr hj hp]
      apply hhead o p j hj hp
      by_cases ho : o ∈ ev.2
      · right
        intro hpe
        apply hnot
        rw [cellsOf_cons]
        apply List.mem_append_left
        rw [List.mem_map]
        exact ⟨o, ho, by rw [hpe]⟩
      · left; exact ho
    · -- touched
      intro o p hmem
      rw [happ]
      rw [cellsOf_cons] at hmem
      rcases List.mem_append.mp hmem with hh | hr
      · rw [List.mem_map] at hh
        obtain ⟨o2, ho2, heq⟩ := hh
        have ho : o = o2 := by cases heq; rfl
        have hp : p = ev.1 := by cases heq; rfl
        subst ho
        subst hp
        have hnr : (o, ev.1) ∉ cellsOf rest := by
          intro hc
          exact hdisj (by rw [List.mem_map]; exact ⟨o, ho2, rfl⟩) hc
        rw [ihr.1 o ev.1 j0 hnr hj0 hp0]
        rw [hv1, (toggleAll_apply ev.1 ev.2 v o hoffs).1 ho2, Nat.and_xor_distrib_right,
            hp0, Nat.and_self]
      · have hex : ∃ j1, j1 < 4 ∧ p = 2 ^ j1 := mem_cellsOf_plane hokr hr
        obtain ⟨j1, hj1, hp1⟩ := hex
        rw [ihr.2.1 o p hr]
        have hv1o : v1 o &&& p = v o &&& p := by
          apply hhead o p j1 hj1 hp1
          by_cases ho : o ∈ ev.2
          · right
            intro hpe
            exact hdisj (by rw [List.mem_map]; exact ⟨o, ho, by rw [hpe]⟩) hr
          · left; exact ho
        rw [hv1o]
    · -- collision flag
      rw [happ, ihr.2.2, cellsOf_cons, List.any_append]
      have hrest_any : (cellsOf rest).any (fun c => v1 c.1 &&& c.2 != 0)
          = (cellsOf rest).any (fun c => v c.1 &&& c.2 != 0) := by
        apply any_congr_mem
        intro c hc
        have hex : ∃ j1, j1 < 4 ∧ c.2 = 2 ^ j1 := mem_cellsOf_plane hokr hc
        obtain ⟨j1, hj1, hp1⟩ := hex
        have : v1 c.1 &&& c.2 = v c.1 &&& c.2 := by
          apply hhead c.1 c.2 j1 hj1 hp1
          by_cases ho : c.1 ∈ ev.2
          · right
            intro hpe
            have hmem1 : c ∈ ev.2.map (fun o => (o, ev.1)) := by
              rw [List.mem_map]
              refine ⟨c.1, ho, ?_⟩
              rw [← hpe]
            exact hdisj hmem1 hc
          · left; exact ho
        rw [this]
      rw [hrest_any]
      have hhead_any : testEvent v ev.1 ev.2
          = (ev.2.map (fun o => (o, ev.1))).any (fun c => v c.1 &&& c.2 != 0) := by
        rw [testEvent_any, any_map_eq]
      rw [hhead_any, Bool.or_assoc]

/-- A cell of a plot event list, written as a pair membership. -/
lemma mem_map_pair {p : Nat} {offs : List Nat} {c : Nat × Nat} :
    c ∈ offs.map (fun o => (o, p)) ↔ c.1 ∈ offs ∧ c.2 = p := by
  rw [List.mem_map]
  constructor
  · rintro ⟨o, ho, rfl⟩
    exact ⟨ho, rfl⟩
  · rintro ⟨h1, h2⟩
    refine ⟨c.1, h1, ?_⟩
    obtain ⟨a, b⟩ := c
    have h3 : b = p := h2
    cases h3
    rfl

lemma mem_cellsOf {evs : List (Nat × List Nat)} {c : Nat × Nat} :
    c ∈ cellsOf evs ↔ ∃ ev ∈ evs, c.1 ∈ ev.2 ∧ c.2 = ev.1 := by
  rw [cellsOf, List.mem_flatMap]
  constructor
  · rintro ⟨ev, hev, hc⟩
    rw [mem_map_pair] at hc
    exact ⟨ev, hev, hc⟩
  · rintro ⟨ev, hev, hc⟩
    exact ⟨ev, hev, mem_map_pair.mpr hc⟩

/-- A flat map of pairwise-disjoint duplicate-free lists is duplicate-free. -/
lemma nodup_flatMap_of {α β : Type} :
    ∀ (l : List α) (f : α → List β),
      l.Nodup → (∀ a ∈ l, (f a).Nodup) →
      (∀ a ∈ l, ∀ b ∈ l, a ≠ b → ∀ c ∈ f a, c ∉ f b) →
      (l.flatMap f).Nodup := by
  intro l f
  induction l with
  | nil =>
    intro _ _ _
    simp
  | cons a rest ih =>
    intro hl hf hd
    rw [List.flatMap_cons, List.nodup_append]
    rw [List.nodup_cons] at hl
    refine ⟨hf a (List.mem_cons_self a rest), ?_, ?_⟩
    · exact ih hl.2 (fun b hb => hf b (List.mem_cons_of_mem a hb))
        (fun b hb b2 hb2 hne => hd b (List.mem_cons_of_mem a hb) b2 (List.mem_cons_of_mem a hb2) hne)
    · intro c hca hcr
      rw [List.mem_flatMap] at hcr
      obtain ⟨b, hb, hcb⟩ := hcr
      have hab : a ≠ b := fun he => hl.1 (he ▸ hb)
      exact hd a (List.mem_cons_self a rest) b (List.mem_cons_of_mem a hb) hab c hca hcb

lemma cellsOf_append (l1 l2 : List (Nat × List Nat)) :
    cellsOf (l1 ++ l2) = cellsOf l1 ++ cellsOf l2 := by
  simp [cellsOf]

lemma cellsOf_flatMap {α : Type} (l : List α) (f : α → List (Nat × List Nat)) :
    cellsOf (l.flatMap f) = l.flatMap (fun a => cellsOf (f a)) := by
  induction l with
  | nil => rfl
  | cons a rest ih => rw [List.flatMap_cons, cellsOf_append, ih, List.flatMap_cons]

/-- The offsets of one plotted block are pairwise distinct. -/
lemma blockOffsets_nodup (hires : Bool) (yy cc : Nat) :
    (blockOffsets hires yy cc).Nodup := by
  cases hires <;> simp [blockOffsets, WIDTH, List.nodup_cons] <;> omega

/-- Blocks at distinct anchors are disjoint.  In lo-res the anchors are
even in both coordinates, so an offset determines its anchor. -/
lemma blockOffsets_disjoint {hires : Bool} {yy1 cc1 yy2 cc2 : Nat}
    (hy1 : yy1 < 64) (hc1 : cc1 < 128) (hy2 : yy2 < 64) (hc2 : cc2 < 128)
    (hpar : hires = false → yy1 % 2 = 0 ∧ cc1 % 2 = 0 ∧ yy2 % 2 = 0 ∧ cc2 % 2 = 0)
    (hne : ¬(yy1 = yy2 ∧ cc1 = cc2)) :
    ∀ o, o ∈ blockOffsets hires yy1 cc1 → o ∉ blockOffsets hires yy2 cc2 := by
  intro o h1 h2
  cases hires with
  | false =>
    obtain ⟨e1, e2, e3, e4⟩ := hpar rfl
    simp [blockOffsets, WIDTH] at h1 h2
    omega
  | true =>
    simp [blockOffsets, WIDTH] at h1 h2
    omega

/-- Every offset of a plotted block is inside the 128 x 64 VRAM. -/
lemma blockOffsets_lt {hires : Bool} {yy cc o : Nat} (hy : yy < 64) (hc : cc < 128)
    (hpar : hires = false → yy % 2 = 0 ∧ cc % 2 = 0)
    (ho : o ∈ blockOffsets hires yy cc) : o < 8192 := by
  cases hires with
  | false =>
    obtain ⟨e1, e2⟩ := hpar rfl
    simp [blockOffsets, WIDTH] at ho
    omega
  | true =>
    simp [blockOffsets, WIDTH] at ho
    omega

lemma colFor_eq (hires clip : Bool) (sx t : Nat) :
    colFor hires clip sx t =
      if clip ∧ sx + t * (if hires then 1 else 2) ≥ WIDTH then none
      else some ((sx + t * (if hires then 1 else 2)) % WIDTH) := rfl

lemma colFor_facts {hires clip : Bool} {sx t cc : Nat}
    (h : colFor hires clip sx t = some cc) :
    cc = (sx + t * (if hires then 1 else 2)) % 128 := by
  rw [colFor_eq] at h
  by_cases hcl : clip ∧ sx + t * (if hires then 1 else 2) ≥ WIDTH
  · rw [if_pos hcl] at h
    exact Option.noConfusion h
  · rw [if_neg hcl] at h
    injection h with h1
    exact h1.symm

lemma colFor_lt {hires clip : Bool} {sx t cc : Nat}
    (h : colFor hires clip sx t = some cc) : cc < 128 := by
  have e := colFor_facts h
  cases hires <;> simp at e <;> omega

lemma colFor_even {clip : Bool} {sx t cc : Nat}
    (h : colFor false clip sx t = some cc) (hsx : sx % 2 = 0) : cc % 2 = 0 := by
  have e := colFor_facts h
  simp at e
  omega

lemma colFor_inj {hires clip : Bool} {sx t1 t2 cc1 cc2 : Nat}
    (h1 : colFor hires clip sx t1 = some cc1) (h2 : colFor hires clip sx t2 = some cc2)
    (ht1 : t1 < 16) (ht2 : t2 < 16) (hne : t1 ≠ t2) : cc1 ≠ cc2 := by
  have e1 := colFor_facts h1
  have e2 := colFor_facts h2
  cases hires <;> simp at e1 e2 <;> omega

lemma rowFor_eq (hires clip : Bool) (sy k : Nat) :
    rowFor hires clip sy k =
      if clip ∧ sy + k * (if hires then 1 else 2) ≥ HEIGHT then none
      else some ((sy + k * (if hires then 1 else 2)) % HEIGHT) := rfl

lemma rowFor_facts {hires clip : Bool} {sy k yy : Nat}
    (h : rowFor hires clip sy k = some yy) :
    yy = (sy + k * (if hires then 1 else 2)) % 64 := by
  rw [rowFor_eq] at h
  by_cases hcl : clip ∧ sy + k * (if hires then 1 else 2) ≥ HEIGHT
  · rw [if_pos hcl] at h
    exact Option.noConfusion h
  · rw [if_neg hcl] at h
    injection h with h1
    exact h1.symm

lemma rowFor_lt {hires clip : Bool} {sy k yy : Nat}
    (h : rowFor hires clip sy k = some yy) : yy < 64 := by
  have e := rowFor_facts h
  cases hires <;> simp at e <;> omega

lemma rowFor_even {clip : Bool} {sy k yy : Nat}
    (h : rowFor false clip sy k = some yy) (hsy : sy % 2 = 0) : yy % 2 = 0 := by
  have e := rowFor_facts h
  simp at e
  omega

lemma rowFor_inj {hires clip : Bool} {sy k1 k2 yy1 yy2 : Nat}
    (h1 : rowFor hires clip sy k1 = some yy1) (h2 : rowFor hires clip sy k2 = some yy2)
    (hk1 : k1 < 16) (hk2 : k2 < 16) (hne : k1 ≠ k2) : yy1 ≠ yy2 := by
  have e1 := rowFor_facts h1
  have e2 := rowFor_facts h2
  cases hires <;> simp at e1 e2 <;> omega

lemma cells_tEvents_nodup (mem : Nat → Nat) (src p : Nat) (hires clip : Bool)
    (sx bw k yy t : Nat) :
    (cellsOf (tEvents mem src p hires clip sx bw k yy t)).Nodup := by
  unfold tEvents
  by_cases hbit : bitOfSprite mem src bw k t
  · rw [if_pos hbit]
    cases hcol : colFor hires clip sx t with
    | none =>
      show (cellsOf ([] : List (Nat × List Nat))).Nodup
      rw [cellsOf_nil]
      exact List.nodup_nil
    | some cc =>
      show (cellsOf [(p, blockOffsets hires yy cc)]).Nodup
      rw [cellsOf_cons, cellsOf_nil, List.append_nil]
      exact List.Nodup.map (fun a b hab => congrArg Prod.fst hab) (blockOffsets_nodup hires yy cc)
  · rw [if_neg hbit]
    rw [cellsOf_nil]
    exact List.nodup_nil

lemma cells_tEvents_mem {mem : Nat → Nat} {src p : Nat} {hires clip : Bool}
    {sx bw k yy t : Nat} {c : Nat × Nat}
    (hc : c ∈ cellsOf (tEvents mem src p hires clip sx bw k yy t)) :
    ∃ cc, colFor hires clip sx t = some cc ∧ c.2 = p ∧ c.1 ∈ blockOffsets hires yy cc := by
  rw [mem_cellsOf] at hc
  obtain ⟨ev, hev, h1, h2⟩ := hc
  rw [mem_tEvents] at hev
  obtain ⟨hbit, cc, hcol, hev⟩ := hev
  subst hev
  exact ⟨cc, hcol, h2, h1⟩

lemma cells_kEvents_mem {mem : Nat → Nat} {src p : Nat} {hires clip : Bool}
    {sx sy bw k : Nat} {c : Nat × Nat}
    (hc : c ∈ cellsOf (kEvents mem src p hires clip sx sy bw k)) :
    ∃ yy, rowFor hires clip sy k = some yy ∧ ∃ t, t < 8 * bw ∧
      ∃ cc, colFor hires clip sx t = some cc ∧ c.2 = p ∧ c.1 ∈ blockOffsets hires yy cc := by
  rw [mem_cellsOf] at hc
  obtain ⟨ev, hev, h1, h2⟩ := hc
  rw [mem_kEvents] at hev
  obtain ⟨yy, hrow, t, ht, hev⟩ := hev
  rw [mem_tEvents] at hev
  obtain ⟨hbit, cc, hcol, hev⟩ := hev
  subst hev
  exact ⟨yy, hrow, t, ht, cc, hcol, h2, h1⟩

lemma cells_kEvents_nodup (mem : Nat → Nat) (src p : Nat) (hires clip : Bool)
    (sx sy bw k : Nat) (hbw : 8 * bw ≤ 16)
    (hpar : hires = false → sx % 2 = 0 ∧ sy % 2 = 0) :
    (cellsOf (kEvents mem src p hires clip sx sy bw k)).Nodup := by
  unfold kEvents
  cases hrow : rowFor hires clip sy k with
  | none =>
    show (cellsOf ([] : List (Nat × List Nat))).Nodup
    rw [cellsOf_nil]
    exact List.nodup_nil
  | some yy =>
    show (cellsOf ((List.range (8 * bw)).flatMap (tEvents mem src p hires clip sx bw k yy))).Nodup
    rw [cellsOf_flatMap]
    apply nodup_flatMap_of
    · exact List.nodup_range (8 * bw)
    · intro t ht
      exact cells_tEvents_nodup mem src p hires clip sx bw k yy t
    · intro t1 ht1 t2 ht2 htne c hc1 hc2
      rw [List.mem_range] at ht1 ht2
      obtain ⟨cc1, hcol1, hp1, hb1⟩ := cells_tEvents_mem hc1
      obtain ⟨cc2, hcol2, hp2, hb2⟩ := cells_tEvents_mem hc2
      have hccne : cc1 ≠ cc2 := colFor_inj hcol1 hcol2 (by omega) (by omega) htne
      have hpar2 : hires = false → yy % 2 = 0 ∧ cc1 % 2 = 0 ∧ yy % 2 = 0 ∧ cc2 % 2 = 0 := by
        intro hh
        subst hh
        exact ⟨rowFor_even hrow (hpar rfl).2, colFor_even hcol1 (hpar rfl).1,
          rowFor_even hrow (hpar rfl).2, colFor_even hcol2 (hpar rfl).1⟩
      exact blockOffsets_disjoint (rowFor_lt hrow) (colFor_lt hcol1) (rowFor_lt hrow)
        (colFor_lt hcol2) hpar2 (fun hand => hccne hand.2) c.1 hb1 hb2

lemma cells_passEvents_snd {mem : Nat → Nat} {src p : Nat} {hires clip : Bool}
    {sx sy bw rows : Nat} {c : Nat × Nat}
    (hc : c ∈ cellsOf (passEvents mem src p hires clip sx sy bw rows)) : c.2 = p := by
  rw [mem_cellsOf] at hc
  obtain ⟨ev, hev, h1, h2⟩ := hc
  rw [mem_passEvents] at hev
  obtain ⟨k, hk, yy, hrow, t, ht, hbit, cc, hcol, hev⟩ := hev
  subst hev
  exact h2

lemma cells_passEvents_nodup (mem : Nat → Nat) (src p : Nat) (hires clip : Bool)
    (sx sy bw rows : Nat) (hrows : rows ≤ 16) (hbw : 8 * bw ≤ 16)
    (hpar : hires = false → sx % 2 = 0 ∧ sy % 2 = 0) :
    (cellsOf (passEvents mem src p hires clip sx sy bw rows)).Nodup := by
  unfold passEvents
  rw [cellsOf_flatMap]
  apply nodup_flatMap_of
  · exact List.nodup_range rows
  · intro k hk
    exact cells_kEvents_nodup mem src p hires clip sx sy bw k hbw hpar
  · intro k1 hk1 k2 hk2 hkne c hc1 hc2
    rw [List.mem_range] at hk1 hk2
    obtain ⟨yy1, hrow1, t1, ht1, cc1, hcol1, hp1, hb1⟩ := cells_kEvents_mem hc1
    obtain ⟨yy2, hrow2, t2, ht2, cc2, hcol2, hp2, hb2⟩ := cells_kEvents_mem hc2
    have hyne : yy1 ≠ yy2 := rowFor_inj hrow1 hrow2 (by omega) (by omega) hkne
    have hpar2 : hires = false → yy1 % 2 = 0 ∧ cc1 % 2 = 0 ∧ yy2 % 2 = 0 ∧ cc2 % 2 = 0 := by
      intro hh
      subst hh
      exact ⟨rowFor_even hrow1 (hpar rfl).2, colFor_even hcol1 (hpar rfl).1,
        rowFor_even hrow2 (hpar rfl).2, colFor_even hcol2 (hpar rfl).1⟩
    exact blockOffsets_disjoint (rowFor_lt hrow1) (colFor_lt hcol1) (rowFor_lt hrow2)
      (colFor_lt hcol2) hpar2 (fun hand => hyne hand.1) c.1 hb1 hb2

/-- The cells of one DXYN draw are pairwise distinct: inside a plane pass
blocks of distinct sprite bits land on distinct anchors, and distinct
planes carry distinct plane bits. -/
lemma cells_spriteEvents_nodup (mem : Nat → Nat) (i0 pl : Nat) (hires clip : Bool)
    (sx sy n : Nat) (hn : n < 16)
    (hpar : hires = false → sx % 2 = 0 ∧ sy % 2 = 0) :
    (cellsOf (spriteEvents mem i0 pl hires clip sx sy n)).Nodup := by
  show (cellsOf ((List.range 4).flatMap (fun pi =>
    if pl &&& 2 ^ pi ≠ 0 then
      passEvents mem (i0 + (if n = 0 then 32 else n) * countBelow pl pi) (2 ^ pi) hires clip
        sx sy (if n = 0 then 2 else 1) ((if n = 0 then 32 else n) / (if n = 0 then 2 else 1))
    else []))).Nodup
  rw [cellsOf_flatMap]
  apply nodup_flatMap_of
  · exact List.nodup_range 4
  · intro pi hpi
    by_cases hact : pl &&& 2 ^ pi ≠ 0
    · rw [if_pos hact]
      apply cells_passEvents_nodup
      · by_cases hn0 : n = 0 <;> simp [hn0] <;> omega
      · by_cases hn0 : n = 0 <;> simp [hn0]
      · exact hpar
    · rw [if_neg hact]
      rw [cellsOf_nil]
      exact List.nodup_nil
  · intro p1 hp1 p2 hp2 hpne c hc1 hc2
    by_cases hact1 : pl &&& 2 ^ p1 ≠ 0
    · rw [if_pos hact1] at hc1
      by_cases hact2 : pl &&& 2 ^ p2 ≠ 0
      · rw [if_pos hact2] at hc2
        have he1 := cells_passEvents_snd hc1
        have he2 := cells_passEvents_snd hc2
        have hpp : (2 : Nat) ^ p1 = 2 ^ p2 := by rw [← he1, ← he2]
        exact hpne (Nat.pow_right_injective (le_refl 2) hpp)
      · rw [if_neg hact2] at hc2
        rw [cellsOf_nil] at hc2
        exact absurd hc2 (List.not_mem_nil c)
    · rw [if_neg hact1] at hc1
      rw [cellsOf_nil] at hc1
      exact absurd hc1 (List.not_mem_nil c)

/-- Every cell of one DXYN draw lies inside the 128 x 64 VRAM. -/
lemma cells_spriteEvents_lt {mem : Nat → Nat} {i0 pl : Nat} {hires clip : Bool}
    {sx sy n : Nat} {c : Nat × Nat}
    (hpar : hires = false → sx % 2 = 0 ∧ sy % 2 = 0)
    (hc : c ∈ cellsOf (spriteEvents mem i0 pl hires clip sx sy n)) : c.1 < 8192 := by
  rw [mem_cellsOf] at hc
  obtain ⟨ev, hev, h1, h2⟩ := hc
  rw [mem_spriteEvents] at hev
  obtain ⟨pi, hpi, hact, hev⟩ := hev
  rw [mem_passEvents] at hev
  obtain ⟨k, hk, yy, hrow, t, ht, hbit, cc, hcol, hev⟩ := hev
  subst hev
  have hpar2 : hires = false → yy % 2 = 0 ∧ cc % 2 = 0 := by
    intro hh
    subst hh
    exact ⟨rowFor_even hrow (hpar rfl).2, colFor_even hcol (hpar rfl).1⟩
  exact blockOffsets_lt (rowFor_lt hrow) (colFor_lt hcol) hpar2 h1

/-- The collision flag of a draw over duplicate-free single-bit cells is
set iff some plane bit inside the VRAM goes from set to clear. -/
lemma applyEvents_vf_spec (v : Nat → Nat) (evs : List (Nat × List Nat))
    (hok : ∀ ev ∈ evs, ∃ j, j < 4 ∧ ev.1 = 2 ^ j)
    (hnd : (cellsOf evs).Nodup)
    (hlt : ∀ c ∈ cellsOf evs, c.1 < 8192) :
    ((applyEvents v false evs).2 = true ↔
      ∃ o j, o < 8192 ∧ j < 4 ∧ v o &&& 2 ^ j ≠ 0 ∧
        (applyEvents v false evs).1 o &&& 2 ^ j = 0) := by
  obtain ⟨hunt, htou, hflag⟩ := applyEvents_spec evs v false hok hnd
  constructor
  · intro hf
    rw [hflag] at hf
    simp only [Bool.false_or] at hf
    rw [List.any_eq_true] at hf
    obtain ⟨c, hcmem, hcbit⟩ := hf
    obtain ⟨j, hj, hcp⟩ := mem_cellsOf_plane hok hcmem
    have hvne : v c.1 &&& c.2 ≠ 0 := by simpa using hcbit
    refine ⟨c.1, j, hlt c hcmem, hj, ?_, ?_⟩
    · rw [← hcp]
      exact hvne
    · have ht := htou c.1 c.2 hcmem
      rw [hcp] at ht hvne
      rcases and_two_pow_cases (v c.1) j with h0 | h0
      · exact absurd h0 hvne
      · rw [ht, h0, Nat.xor_self]
  · rintro ⟨o, j, ho, hj, hvne, hafter⟩
    by_cases hmem : ((o, 2 ^ j) : Nat × Nat) ∈ cellsOf evs
    · rw [hflag]
      simp only [Bool.false_or]
      rw [List.any_eq_true]
      exact ⟨(o, 2 ^ j), hmem, by simpa using hvne⟩
    · exfalso
      have hu := hunt o (2 ^ j) j hmem hj rfl
      rw [hu] at hafter
      exact hvne hafter

lemma drawCore_regs15 (s : Chip8) (clip : Bool) (x y n : Nat) :
    (drawCore s clip x y n).regs 15 =
      (if (applyEvents s.vram false (spriteEvents s.mem s.i (s.plane % 256) s.hires clip
        (s.regs x % 256 * (if s.hires then 1 else 2) % WIDTH)
        (s.regs y % 256 * (if s.hires then 1 else 2) % HEIGHT) n)).2 then 1 else 0) := rfl

lemma drawCore_vram (s : Chip8) (clip : Bool) (x y n : Nat) :
    (drawCore s clip x y n).vram =
      (applyEvents s.vram false (spriteEvents s.mem s.i (s.plane % 256) s.hires clip
        (s.regs x % 256 * (if s.hires then 1 else 2) % WIDTH)
        (s.regs y % 256 * (if s.hires then 1 else 2) % HEIGHT) n)).1 := rfl

/-- The spec of drawCore needed by claim C5: VF is the collision flag, and
the flag is set exactly when some set plane bit is cleared by the draw. -/
lemma drawCore_spec (s : Chip8) (clip : Bool) (x y n : Nat) (hn : n < 16) :
    ((drawCore s clip x y n).regs 15 = 0 ∨ (drawCore s clip x y n).regs 15 = 1) ∧
    ((drawCore s clip x y n).regs 15 = 1 ↔
      ∃ o j, o < 8192 ∧ j < 4 ∧ s.vram o &&& 2 ^ j ≠ 0 ∧
        (drawCore s clip x y n).vram o &&& 2 ^ j = 0) := by
  have hpar : s.hires = false →
      (s.regs x % 256 * (if s.hires then 1 else 2) % WIDTH) % 2 = 0 ∧
      (s.regs y % 256 * (if s.hires then 1 else 2) % HEIGHT) % 2 = 0 := by
    intro hh
    rw [hh]
    constructor
    · show s.regs x % 256 * 2 % 128 % 2 = 0
      omega
    · show s.regs y % 256 * 2 % 64 % 2 = 0
      omega
  have hmain := applyEvents_vf_spec s.vram
    (spriteEvents s.mem s.i (s.plane % 256) s.hires clip
      (s.regs x % 256 * (if s.hires then 1 else 2) % WIDTH)
      (s.regs y % 256 * (if s.hires then 1 else 2) % HEIGHT) n)
    (fun ev hev => spriteEvents_fst hev)
    (cells_spriteEvents_nodup s.mem s.i (s.plane % 256) s.hires clip
      (s.regs x % 256 * (if s.hires then 1 else 2) % WIDTH)
      (s.regs y % 256 * (if s.hires then 1 else 2) % HEIGHT) n hn hpar)
    (fun c hc => cells_spriteEvents_lt hpar hc)
  rw [drawCore_regs15, drawCore_vram]
  refine ⟨?_, ?_, ?_⟩
  · by_cases hx : (applyEvents s.vram false (spriteEvents s.mem s.i (s.plane % 256) s.hires clip
        (s.regs x % 256 * (if s.hires then 1 else 2) % WIDTH)
        (s.regs y % 256 * (if s.hires then 1 else 2) % HEIGHT) n)).2 = true
    · right
      rw [if_pos hx]
    · left
      rw [if_neg hx]
  · intro h1
    rw [← hmain]
    by_contra hb
    rw [if_neg hb] at h1
    exact absurd h1 (by norm_num)
  · intro hex
    rw [← hmain] at hex
    rw [if_pos hex]

lemma postDispWait_regs_eq (t : Chip8) : (postDispWait t).regs = t.regs := by
  unfold postDispWait
  split <;> rfl

lemma postDispWait_vram_eq (t : Chip8) : (postDispWait t).vram = t.vram := by
  unfold postDispWait
  split <;> rfl

/-- Witness state for C5: a fresh XO-CHIP state switched to hi-res mode
with opcode D011 at 0x200 and an all-zero one-row sprite at I = 0. -/
def c5St : Chip8 :=
  { zeroState with
    mem := fun a => if a = 0x200 then 0xd0 else if a = 0x201 then 0x11 else 0
    hires := true }

/-- C5: after every DXYN draw executed via step, VF is 0 or 1, and VF = 1
if and only if some VRAM plane bit that was 1 before the draw was toggled
to 0 by the draw (the drawn blocks of one draw are pairwise disjoint, so
the per-block pre-state test of the source coincides with the 1-to-0
transition reading). -/
theorem c5_draw_vf_collision (s : Chip8) (hh : s.halted = false)
    (hop : (s.mem s.pc % 256 * 256 + s.mem ((s.pc + 1) % 65536) % 256) / 4096 = 0xd) :
    ∃ s2, step s = .ok s2 ∧ (s2.regs 15 = 0 ∨ s2.regs 15 = 1) ∧
      (s2.regs 15 = 1 ↔ ∃ o j, o < WIDTH * HEIGHT ∧ j < 4 ∧
        s.vram o &&& 2 ^ j ≠ 0 ∧ s2.vram o &&& 2 ^ j = 0) := by
  rw [step_eq s hh]
  rw [stepOp_d _ _ hop]
  refine ⟨_, rfl, ?_⟩
  unfold execDraw
  rw [postDispWait_regs_eq, postDispWait_vram_eq]
  exact drawCore_spec _ _ _ _ _ (by omega)

/-- Concrete instantiation of c5_draw_vf_collision: the hi-res D011 draw
of an all-zero sprite row on the zeroed state. -/
theorem c5_draw_vf_collision_witness :
    c5St.halted = false ∧
    (c5St.mem c5St.pc % 256 * 256 + c5St.mem ((c5St.pc + 1) % 65536) % 256) / 4096 = 0xd ∧
    ∃ s2, step c5St = .ok s2 ∧ (s2.regs 15 = 0 ∨ s2.regs 15 = 1) ∧
      (s2.regs 15 = 1 ↔ ∃ o j, o < WIDTH * HEIGHT ∧ j < 4 ∧
        c5St.vram o &&& 2 ^ j ≠ 0 ∧ s2.vram o &&& 2 ^ j = 0) :=
  ⟨rfl, by decide, c5_draw_vf_collision c5St rfl (by decide)⟩
